import Mathlib

/-!
# Driftfield core pipeline — shallow embedding

This file embeds the signal-processing core of the Driftfield repository
(`api/stripe-webhook.js`, entropy engine / cycle layer / behavioral layer)
into Lean and proves properties of the embedded definitions.

Numeric conventions: JavaScript numbers are idealised as exact arithmetic
(`ℚ` for the purely rational computations, `ℝ` where logarithms, square
roots, `π` or trigonometric functions appear).  Byte samples are `List ℕ`
with values `≤ 255`.
-/

set_option maxRecDepth 16384

namespace Driftfield

/-! ## Entropy engine: statistics over a byte sample -/

/-- `shannonEntropy` from the source: `H = -Σ p·log2 p` over the frequency
table of the sample (only values that occur contribute, matching the
`for k in freq` iteration with its `p > 0` guard). -/
noncomputable def shannonEntropy (data : List ℕ) : ℝ :=
  ∑ k in data.toFinset,
    -(((data.count k : ℝ) / data.length) * Real.logb 2 ((data.count k : ℝ) / data.length))

/-- The source's `[...data].sort((a,b)=>a-b)[Math.floor(data.length/2)]`. -/
def median (data : List ℕ) : ℕ :=
  (List.insertionSort (· ≤ ·) data).getD (data.length / 2) 0

/-- Result record of `runsTest`. -/
structure RunsResult where
  runs : ℕ
  maxRun : ℕ
  expected : ℚ
  deviation : ℚ
  clusterScore : ℚ
  deriving Repr, DecidableEq

/-- The scan loop of `runsTest`: walks the sample comparing the
classification (`byte >= median`) of each element with its predecessor,
carrying `(runs, maxRun, currentRun)`. -/
def runsAux (m : ℕ) : List ℕ → ℕ → ℕ → ℕ → ℕ → ℕ × ℕ
  | [], _prev, runs, maxRun, _cur => (runs, maxRun)
  | b :: rest, prev, runs, maxRun, cur =>
    if decide (m ≤ b) = decide (m ≤ prev) then
      runsAux m rest b runs (max maxRun (cur + 1)) (cur + 1)
    else
      runsAux m rest b (runs + 1) maxRun 1

/-- `runsTest` from the source: median classification, run counting, and
deviation from the expected `(n+1)/2` runs. -/
def runsTest (data : List ℕ) : RunsResult :=
  let m := median data
  let rm : ℕ × ℕ :=
    match data with
    | [] => (1, 1)
    | b :: rest => runsAux m rest b 1 1 1
  let expected : ℚ := ((data.length : ℚ) + 1) / 2
  let deviation : ℚ := ((rm.1 : ℚ) - expected) / expected
  { runs := rm.1, maxRun := rm.2, expected := expected,
    deviation := deviation, clusterScore := -deviation }

/-- `chiSquared`'s `chi2` value: 256 buckets by byte value, expected
`n/256` per bucket. -/
def chi2 (data : List ℕ) : ℚ :=
  let e : ℚ := (data.length : ℚ) / 256
  ∑ i in Finset.range 256, ((data.count i : ℚ) - e) ^ 2 / e

/-- `chiSquared`'s normalisation against 255 degrees of freedom. -/
def chiNormalized (data : List ℕ) : ℚ := (chi2 data - 255) / 255

/-- `data[i]` as a rational (out-of-range reads default to 0; all uses are
guarded by length preconditions). -/
def dAt (data : List ℕ) (i : ℕ) : ℚ := (data.getD i 0 : ℚ)

/-- `n = data.length - 1`, the number of lag-1 pairs in `serialCorrelation`. -/
def scLen (data : List ℕ) : ℕ := data.length - 1

/-- `sumX` accumulated by the `serialCorrelation` loop. -/
def sumX (data : List ℕ) : ℚ := ∑ i in Finset.range (scLen data), dAt data i

/-- `sumY` accumulated by the `serialCorrelation` loop. -/
def sumY (data : List ℕ) : ℚ := ∑ i in Finset.range (scLen data), dAt data (i + 1)

/-- `sumXY` accumulated by the `serialCorrelation` loop. -/
def sumXY (data : List ℕ) : ℚ :=
  ∑ i in Finset.range (scLen data), dAt data i * dAt data (i + 1)

/-- `sumX2` accumulated by the `serialCorrelation` loop. -/
def sumX2 (data : List ℕ) : ℚ := ∑ i in Finset.range (scLen data), dAt data i ^ 2

/-- `sumY2` accumulated by the `serialCorrelation` loop. -/
def sumY2 (data : List ℕ) : ℚ := ∑ i in Finset.range (scLen data), dAt data (i + 1) ^ 2

/-- `num = n*sumXY - sumX*sumY` in `serialCorrelation`. -/
def scNum (data : List ℕ) : ℚ := (scLen data : ℚ) * sumXY data - sumX data * sumY data

/-- First factor under the square root in `serialCorrelation`'s denominator. -/
def scDenX (data : List ℕ) : ℚ := (scLen data : ℚ) * sumX2 data - sumX data ^ 2

/-- Second factor under the square root in `serialCorrelation`'s denominator. -/
def scDenY (data : List ℕ) : ℚ := (scLen data : ℚ) * sumY2 data - sumY data ^ 2

/-- `serialCorrelation` from the source: lag-1 Pearson correlation with the
explicit `den === 0 ? 0` guard. -/
noncomputable def serialCorrelation (data : List ℕ) : ℝ :=
  let den : ℝ := Real.sqrt ((scDenX data * scDenY data : ℚ) : ℝ)
  if den = 0 then 0 else ((scNum data : ℚ) : ℝ) / den

/-- Number of 4-byte groups consumed by `monteCarloDeviation`. -/
def mcPairs (data : List ℕ) : ℕ := data.length / 4

/-- x-coordinate of the i-th Monte-Carlo point: `((data[4i] << 8) | data[4i+1]) / 65536`. -/
def mcX (data : List ℕ) (i : ℕ) : ℚ :=
  ((data.getD (i * 4) 0 * 256 + data.getD (i * 4 + 1) 0 : ℕ) : ℚ) / 65536

/-- y-coordinate of the i-th Monte-Carlo point. -/
def mcY (data : List ℕ) (i : ℕ) : ℚ :=
  ((data.getD (i * 4 + 2) 0 * 256 + data.getD (i * 4 + 3) 0 : ℕ) : ℚ) / 65536

/-- Number of Monte-Carlo points inside the unit circle (`x*x + y*y <= 1`). -/
def mcInside (data : List ℕ) : ℕ :=
  ((Finset.range (mcPairs data)).filter
    (fun i => mcX data i ^ 2 + mcY data i ^ 2 ≤ 1)).card

/-- `piEstimate = 4*inside/pairs` from `monteCarloDeviation`. -/
def piEstimate (data : List ℕ) : ℚ := 4 * (mcInside data : ℚ) / (mcPairs data : ℚ)

/-- `deviation = |piEstimate - π| / π` from `monteCarloDeviation`. -/
noncomputable def mcDeviation (data : List ℕ) : ℝ :=
  |((piEstimate data : ℚ) : ℝ) - Real.pi| / Real.pi

/-! ## Entropy engine: `fullEntropyAnalysis` -/

/-- `entropyDev = |8 - shannon| / 8`. -/
noncomputable def entropyDev (data : List ℕ) : ℝ := |8 - shannonEntropy data| / 8

/-- The composite anomaly value of `fullEntropyAnalysis` before the `*3`
scaling and the clamp (the local `anomalyScore` variable in the source). -/
noncomputable def anomalyRaw (data : List ℕ) : ℝ :=
  entropyDev data * 0.2 + |(((runsTest data).deviation : ℚ) : ℝ)| * 0.25 +
    |((chiNormalized data : ℚ) : ℝ)| * 0.2 + |serialCorrelation data| * 0.15 +
    mcDeviation data * 0.2

/-- `angle`: big-endian 16-bit value from bytes 0–1, scaled to `[0,360)`. -/
def angle (data : List ℕ) : ℚ :=
  ((data.getD 0 0 * 256 + data.getD 1 0 : ℕ) : ℚ) / 65536 * 360

/-- `magnitude`: big-endian 16-bit value from bytes 2–3, scaled to `[0,1)`. -/
def magnitude (data : List ℕ) : ℚ :=
  ((data.getD 2 0 * 256 + data.getD 3 0 : ℕ) : ℚ) / 65536

/-- `actionSeed = data[4] % 8`. -/
def actionSeed (data : List ℕ) : ℕ := data.getD 4 0 % 8

/-- `rawPolarity = (polaritySeed / 255) * 2 - 1` where `polaritySeed = data[5]`. -/
def rawPolarity (data : List ℕ) : ℚ := ((data.getD 5 0 : ℕ) : ℚ) / 255 * 2 - 1

/-- The asymmetric bias added to `rawPolarity`: `+0.2` when the pre-scaling
anomaly value exceeds `0.1`, else `-0.1`. -/
noncomputable def polarityBias (data : List ℕ) : ℝ :=
  if anomalyRaw data > 0.1 then 0.2 else -0.1

/-- The biased polarity value (the local `polarity` variable, returned as
`polarityRaw`). -/
noncomputable def polarityValue (data : List ℕ) : ℝ :=
  ((rawPolarity data : ℚ) : ℝ) + polarityBias data

/-- The `direction` record of `fullEntropyAnalysis`. -/
structure Direction where
  angle : ℚ
  magnitude : ℚ
  actionSeed : ℕ
  deriving Repr, DecidableEq

/-- Result record of `fullEntropyAnalysis` (fields that carry data; the
`rawData` slice and timestamp are environmental and omitted). -/
structure EntropyAnalysis where
  shannon : ℝ
  runs : RunsResult
  chiNormalized : ℚ
  corr : ℝ
  mcDeviationVal : ℝ
  anomalyScore : ℝ
  direction : Direction
  polarity : String
  polarityRaw : ℝ

/-- `fullEntropyAnalysis` from the source, as a function of the sampled
bytes: runs all five statistics, combines them into the anomaly score
(`min(anomalyScore*3, 1)`), and derives direction and polarity from fixed
byte positions. -/
noncomputable def fullEntropyAnalysis (data : List ℕ) : EntropyAnalysis :=
  { shannon := shannonEntropy data
    runs := runsTest data
    chiNormalized := chiNormalized data
    corr := serialCorrelation data
    mcDeviationVal := mcDeviation data
    anomalyScore := min (anomalyRaw data * 3) 1
    direction := ⟨angle data, magnitude data, actionSeed data⟩
    polarity := if polarityValue data > 0 then "positive" else "negative"
    polarityRaw := polarityValue data }

/-! ## Behavioral layer: streak detection in `analyzePatterns` -/

/-- Polarity tag of a logged event. -/
inductive Polarity where
  | positive
  | negative
  | neutral
  deriving Repr, DecidableEq

/-- The streak scan loop of `analyzePatterns`: walks consecutive event
polarities carrying `(streak, maxStreak, sPolarity)`; `maxStreak` and
`sPolarity` are overwritten only on strict `streak > maxStreak`. -/
def streakAux : List Polarity → Polarity → ℕ → ℕ → Polarity → ℕ × Polarity
  | [], _prev, _streak, maxStreak, sPol => (maxStreak, sPol)
  | p :: rest, prev, streak, maxStreak, sPol =>
    if p = prev then
      if streak + 1 > maxStreak then streakAux rest p (streak + 1) (streak + 1) p
      else streakAux rest p (streak + 1) maxStreak sPol
    else streakAux rest p 1 maxStreak sPol

/-- The streak scan of `analyzePatterns` started as in the source:
`streak = 1, maxStreak = 1, sPolarity = events[0].polarity`.  (The empty
case is unreachable behind the `events.length < 3` guard.) -/
def streakScan : List Polarity → ℕ × Polarity
  | [] => (1, Polarity.neutral)
  | p :: rest => streakAux rest p 1 1 p

/-- The streak pattern pushed by `analyzePatterns`: reported only when
`maxStreak >= 3`, carrying `sPolarity` and `strength = maxStreak / events.length`. -/
def streakPattern (events : List Polarity) : Option (Polarity × ℚ) :=
  let mp := streakScan events
  if 3 ≤ mp.1 then some (mp.2, (mp.1 : ℚ) / (events.length : ℚ)) else none

/-! ## Run-length blocks (specification-side view of both scan loops) -/

/-- Run-length encoding of `a^k ++ l`: the maximal blocks of consecutive
equal elements, with the first block seeded by symbol `a` and count `k`. -/
def chunksFrom {α : Type} [DecidableEq α] (a : α) (k : ℕ) : List α → List (α × ℕ)
  | [] => [(a, k)]
  | b :: rest => if b = a then chunksFrom a (k + 1) rest else (a, k) :: chunksFrom b 1 rest

/-- Maximal blocks of consecutive equal elements of a list. -/
def runBlocks {α : Type} [DecidableEq α] : List α → List (α × ℕ)
  | [] => []
  | a :: rest => chunksFrom a 1 rest

/-- Length of the longest block. -/
def maxBlockLen {α : Type} (bs : List (α × ℕ)) : ℕ :=
  bs.foldr (fun c m => max c.2 m) 0

/-- Symbol of the first block whose length attains `maxBlockLen`. -/
def firstMaxBlock {α : Type} [DecidableEq α] (bs : List (α × ℕ)) : Option α :=
  (bs.find? (fun c => decide (c.2 = maxBlockLen bs))).map Prod.fst

/-- Symbol of the last block whose length attains the maximum. -/
def lastMaxBlock {α : Type} [DecidableEq α] (bs : List (α × ℕ)) : Option α :=
  (bs.reverse.find? (fun c => decide (c.2 = maxBlockLen bs))).map Prod.fst

/-- Abstract per-block replay of the two scan loops: fold the blocks
keeping the running maximum and the symbol recorded at the last strict
improvement. -/
def blockFold {α : Type} : List (α × ℕ) → ℕ → α → ℕ × α
  | [], m, s => (m, s)
  | c :: tl, m, s => blockFold tl (max m c.2) (if c.2 > m then c.1 else s)

/-! ## Cycle layer: temporal gates -/

/-- One time-of-day gate: name, `[lo, hi)` range in fractional hours, and
energy (the descriptive `quality` strings are inert and omitted). -/
structure Gate where
  name : String
  lo : ℚ
  hi : ℚ
  energy : ℚ
  deriving Repr, DecidableEq

/-- `gates[0]` from the source. -/
def gate0 : Gate := ⟨"Deep Void", 0, 3, 0.6⟩

/-- The nine fixed gates of `temporalGate`. -/
def gates : List Gate :=
  [gate0,
   ⟨"Pre-Dawn Liminal", 3, 5, 0.8⟩,
   ⟨"Dawn Gate", 5, 7, 0.9⟩,
   ⟨"Morning Ascent", 7, 10, 0.7⟩,
   ⟨"Solar Apex", 10, 13, 0.5⟩,
   ⟨"Afternoon Drift", 13, 16, 0.4⟩,
   ⟨"Twilight Gate", 16, 19, 0.85⟩,
   ⟨"Evening Integration", 19, 22, 0.6⟩,
   ⟨"Night Descent", 22, 24, 0.7⟩]

/-- `h >= g.range[0] && h < g.range[1]`. -/
def gateMatches (h : ℚ) (g : Gate) : Bool := decide (g.lo ≤ h) && decide (h < g.hi)

/-- `temporalGate` selection: first matching gate, `gates[0]` as fallback. -/
def temporalGate (h : ℚ) : Gate := (gates.find? (gateMatches h)).getD gate0

/-! ## Cycle layer: lunar phase -/

/-- JavaScript `%` truncates the quotient toward zero. -/
noncomputable def jsTrunc (y : ℝ) : ℤ := if 0 ≤ y then ⌊y⌋ else ⌈y⌉

/-- JavaScript remainder `x % m` on (idealised) numbers. -/
noncomputable def jsMod (x m : ℝ) : ℝ := x - m * (jsTrunc (x / m) : ℝ)

/-- The synodic month length used by `lunarPhase`, in days. -/
def synodicMonth : ℚ := 29.53058770576

/-- `new Date(2000, 0, 6, 18, 14).getTime()`: the reference new-moon epoch
in milliseconds (interpreted in UTC; the local-time offset only shifts the
phase origin and is irrelevant to the properties proved here). -/
def knownNewMs : ℚ := 947182440000

/-- `daysSince = (date - knownNew) / 86400000`. -/
noncomputable def lunarDaysSince (t : ℝ) : ℝ := (t - (knownNewMs : ℝ)) / 86400000

/-- `phase = ((daysSince % cycle) + cycle) % cycle`, the sign-corrected fold. -/
noncomputable def lunarPhaseDay (t : ℝ) : ℝ :=
  jsMod (jsMod (lunarDaysSince t) (synodicMonth : ℝ) + (synodicMonth : ℝ)) (synodicMonth : ℝ)

/-- `normalized = phase / cycle`. -/
noncomputable def lunarNormalized (t : ℝ) : ℝ := lunarPhaseDay t / (synodicMonth : ℝ)

/-- The eight phase names of `lunarPhase`. -/
def lunarNames : List String :=
  ["New Moon", "Waxing Crescent", "First Quarter", "Waxing Gibbous",
   "Full Moon", "Waning Gibbous", "Last Quarter", "Waning Crescent"]

/-- `idx = Math.floor(normalized * 8) % 8`. -/
noncomputable def lunarIdx (t : ℝ) : ℤ := ⌊lunarNormalized t * 8⌋ % 8

/-- The phase bucket name `names[idx]`. -/
noncomputable def lunarName (t : ℝ) : String := lunarNames.getD (lunarIdx t).toNat ""

/-- `energy = 0.5 + 0.5 * Math.sin(normalized * Math.PI * 2)`. -/
noncomputable def lunarEnergy (t : ℝ) : ℝ :=
  0.5 + 0.5 * Real.sin (lunarNormalized t * Real.pi * 2)

/-! ## Specification-side Pearson correlation -/

/-- Modelled from the spec: "Pearson correlation between the sequence and
itself shifted by one position" — the textbook mean/covariance form, used
to check that `serialCorrelation`'s computational formula refines it. -/
noncomputable def pearson (n : ℕ) (x y : ℕ → ℚ) : ℝ :=
  let xbar : ℚ := (∑ i in Finset.range n, x i) / n
  let ybar : ℚ := (∑ i in Finset.range n, y i) / n
  let cov : ℚ := ∑ i in Finset.range n, (x i - xbar) * (y i - ybar)
  let vx : ℚ := ∑ i in Finset.range n, (x i - xbar) ^ 2
  let vy : ℚ := ∑ i in Finset.range n, (y i - ybar) ^ 2
  ((cov : ℚ) : ℝ) / Real.sqrt (((vx * vy : ℚ) : ℝ))

/-! ## Decision scorer -/

/-- Gut-feeling attribute of a decision option. -/
inductive Gut where
  | excited
  | anxious
  | neutral
  | dread
  deriving Repr, DecidableEq

/-- A decision option descriptor. -/
structure DecisionOption where
  isNovel : Bool
  meetsNew : Bool
  crowd : Bool
  reversible : Bool
  opens : Bool
  closes : Bool
  gut : Gut
  deriving Repr, DecidableEq

/-- Per-option score and rationale notes. -/
structure OptionScore where
  score : ℤ
  notes : List String
  deriving Repr, DecidableEq

/-- The inner `sc` closure of `evaluateDecision`: fixed point deltas plus a
note per contributing factor, in evaluation order. -/
def scoreOption (o : DecisionOption) : OptionScore :=
  let acc : ℤ × List String := (0, [])
  let acc := if o.isNovel then (acc.1 + 25, acc.2 ++ ["Novel — expands possibility space"])
             else (acc.1 + 5, acc.2 ++ ["Familiar — predictable"])
  let acc := if o.meetsNew then (acc.1 + 20, acc.2 ++ ["New people = new weak ties"]) else acc
  let acc := if o.crowd then (acc.1 + 10, acc.2 ++ ["Crowd exposure"]) else acc
  let acc := if o.reversible then (acc.1 + 15, acc.2 ++ ["Reversible — low risk"])
             else (acc.1 + 5, acc.2 ++ ["Irreversible — higher stakes"])
  let acc := if o.opens then (acc.1 + 20, acc.2 ++ ["Opens future paths"]) else acc
  let acc := if o.closes then (acc.1 - 10, acc.2 ++ ["Closes paths"]) else acc
  let acc :=
    match o.gut with
    | Gut.excited => (acc.1 + 15, acc.2 ++ ["Intuition says yes"])
    | Gut.anxious => (acc.1 + 10, acc.2 ++ ["Growth-edge anxiety"])
    | Gut.dread => (acc.1 - 5, acc.2 ++ ["Dread signal"])
    | Gut.neutral => (acc.1, acc.2 ++ ["No intuition signal"])
  { score := acc.1, notes := acc.2 }

/-- Result record of `evaluateDecision`. -/
structure DecisionResult where
  a : OptionScore
  b : OptionScore
  diff : ℤ
  verdict : String
  deriving Repr, DecidableEq

/-- `evaluateDecision` from the source. -/
def evaluateDecision (a b : DecisionOption) : DecisionResult :=
  let ra := scoreOption a
  let rb := scoreOption b
  let d := ra.score - rb.score
  let verdict :=
    if |d| < 10 then "Near-equal. Flip a coin — both expand surface area."
    else if d > 0 then "Option A: +" ++ toString d ++ " serendipity potential."
    else "Option B: +" ++ toString (-d) ++ " serendipity potential."
  { a := ra, b := rb, diff := d, verdict := verdict }

/-! ## Concrete samples used as inputs below -/

/-- A byte sample whose biased polarity value is exactly 0:
`byte[5] = 102` gives `rawPolarity = -1/5`, and the detected anomaly of
the degenerate sample adds bias `+1/5`. -/
def sampleTie : List ℕ := [0, 0, 0, 0, 0, 102, 0, 0]

/-- Six events: a positive run of length 3 followed by a negative run of
length 3 — two opposite-polarity runs sharing the maximal length, the
negative one occurring last. -/
def streakTieSample : List Polarity :=
  [Polarity.positive, Polarity.positive, Polarity.positive,
   Polarity.negative, Polarity.negative, Polarity.negative]

/-- A byte sample with bytes equal to the median (`median = 1`): the
`>= median` and `> median` classifications give different run counts. -/
def runsTieSample : List ℕ := [0, 0, 0, 0, 1, 1, 1, 1]

/-- A 256-byte sample pitched between the two anomaly thresholds: each of
the 128 values 0..127 appears exactly twice (Shannon entropy exactly 7,
`chi2 = 256`), the median classification alternates in blocks of two
(128 runs), the lag-1 correlation is tiny, and all Monte-Carlo points fall
inside the unit circle.  Its pre-scaling anomaly value lies in
`(1/30, 1/10]`, so the final `anomalyScore` exceeds 0.1 while the polarity
bias branch is NOT taken. -/
def sampleAnomalyMid : List ℕ :=
  [11, 35, 101, 68, 60, 49, 88, 114, 29, 51, 116, 126, 8, 30, 91, 102, 57, 22, 117, 66,
   24, 40, 111, 76, 4, 48, 74, 72, 43, 19, 93, 98, 16, 52, 67, 86, 11, 0, 112, 109,
   17, 14, 97, 113, 18, 39, 70, 114, 46, 9, 103, 113, 8, 61, 95, 121, 58, 31, 99, 86,
   17, 7, 75, 67, 39, 5, 111, 106, 10, 61, 118, 120, 59, 13, 120, 66, 23, 54, 81, 115,
   44, 62, 92, 123, 56, 51, 107, 82, 6, 43, 78, 125, 27, 45, 102, 84, 47, 42, 116, 90,
   3, 38, 82, 85, 15, 3, 109, 119, 28, 36, 125, 64, 62, 48, 73, 122, 53, 4, 127, 94,
   44, 25, 83, 118, 12, 45, 68, 101, 41, 55, 105, 72, 38, 30, 73, 65, 56, 1, 108, 110,
   34, 50, 77, 69, 24, 40, 78, 80, 23, 1, 99, 112, 28, 26, 87, 89, 29, 49, 106, 115,
   41, 20, 105, 76, 57, 37, 108, 85, 53, 33, 94, 124, 60, 46, 81, 124, 26, 42, 64, 104,
   32, 35, 75, 104, 63, 33, 100, 80, 54, 5, 88, 103, 58, 63, 110, 77, 47, 10, 74, 71,
   22, 34, 100, 91, 36, 16, 83, 92, 13, 37, 79, 84, 59, 31, 71, 93, 6, 15, 90, 69,
   2, 55, 127, 95, 20, 25, 89, 79, 21, 50, 87, 107, 2, 32, 123, 98, 7, 9, 126, 96,
   0, 12, 65, 97, 27, 21, 70, 96, 14, 19, 122, 117, 52, 18, 119, 121]

end Driftfield

namespace Driftfield

/-! ## Shared bounds on the anomaly components -/

/-- Unfolding lemma: the deviation field of `runsTest` in terms of its runs
count (rational arithmetic is opaque to kernel reduction, so concrete
deviations are computed from the `ℕ`-valued runs count). -/
lemma runsTest_deviation_def (data : List ℕ) :
    (runsTest data).deviation =
      (((runsTest data).runs : ℚ) - ((data.length : ℚ) + 1) / 2) /
        (((data.length : ℚ) + 1) / 2) := rfl

lemma entropyDev_nonneg (data : List ℕ) : 0 ≤ entropyDev data := by
  unfold entropyDev; positivity

lemma mcDeviation_nonneg (data : List ℕ) : 0 ≤ mcDeviation data := by
  unfold mcDeviation; positivity

lemma anomalyRaw_nonneg (data : List ℕ) : 0 ≤ anomalyRaw data := by
  unfold anomalyRaw entropyDev mcDeviation; positivity

lemma anomalyRaw_ge_runsTerm (data : List ℕ) :
    |(((runsTest data).deviation : ℚ) : ℝ)| * 0.25 ≤ anomalyRaw data := by
  have h1 : 0 ≤ entropyDev data * 0.2 := mul_nonneg (entropyDev_nonneg data) (by norm_num)
  have h2 : 0 ≤ |((chiNormalized data : ℚ) : ℝ)| * 0.2 := mul_nonneg (abs_nonneg _) (by norm_num)
  have h3 : 0 ≤ |serialCorrelation data| * 0.15 := mul_nonneg (abs_nonneg _) (by norm_num)
  have h4 : 0 ≤ mcDeviation data * 0.2 := mul_nonneg (mcDeviation_nonneg data) (by norm_num)
  unfold anomalyRaw
  linarith

lemma anomalyRaw_ge_chiTerm (data : List ℕ) :
    |((chiNormalized data : ℚ) : ℝ)| * 0.2 ≤ anomalyRaw data := by
  have h1 : 0 ≤ entropyDev data * 0.2 := mul_nonneg (entropyDev_nonneg data) (by norm_num)
  have h2 : 0 ≤ |(((runsTest data).deviation : ℚ) : ℝ)| * 0.25 :=
    mul_nonneg (abs_nonneg _) (by norm_num)
  have h3 : 0 ≤ |serialCorrelation data| * 0.15 := mul_nonneg (abs_nonneg _) (by norm_num)
  have h4 : 0 ≤ mcDeviation data * 0.2 := mul_nonneg (mcDeviation_nonneg data) (by norm_num)
  unfold anomalyRaw
  linarith

/-! ## C2 -/

/-- C2: for every byte sample of length ≥ 8 (including adversarial inputs
such as an all-zero sample), the `anomalyScore` returned by
`fullEntropyAnalysis` lies in the closed interval [0,1]. -/
theorem anomalyScore_mem_unit (data : List ℕ) (h : 8 ≤ data.length) :
    0 ≤ (fullEntropyAnalysis data).anomalyScore ∧
      (fullEntropyAnalysis data).anomalyScore ≤ 1 := by
  simp only [fullEntropyAnalysis]
  constructor
  · exact le_min (by have := anomalyRaw_nonneg data; linarith) zero_le_one
  · exact min_le_right _ _

/-- Witness for C2 at the adversarial all-zero sample of length 8. -/
theorem anomalyScore_mem_unit_witness :
    8 ≤ (List.replicate 8 0).length ∧
      (0 ≤ (fullEntropyAnalysis (List.replicate 8 0)).anomalyScore ∧
        (fullEntropyAnalysis (List.replicate 8 0)).anomalyScore ≤ 1) :=
  ⟨by decide, anomalyScore_mem_unit (List.replicate 8 0) (by decide)⟩

/-- Algebraic form of `chi2` in terms of the plain and squared frequency
sums (used both for constant samples and for concrete evaluations). -/
lemma chi2_eq_sums (data : List ℕ) (hn : data.length ≠ 0) :
    chi2 data =
      256 * (∑ i in Finset.range 256, ((data.count i : ℚ)) ^ 2) / (data.length : ℚ) -
        2 * (∑ i in Finset.range 256, (data.count i : ℚ)) + (data.length : ℚ) := by
  have hne : ((data.length : ℚ)) ≠ 0 := Nat.cast_ne_zero.mpr hn
  unfold chi2
  rw [← Finset.sum_div]
  have expand :
      ∑ i in Finset.range 256, ((data.count i : ℚ) - (data.length : ℚ) / 256) ^ 2 =
        (∑ i in Finset.range 256, ((data.count i : ℚ)) ^ 2) -
          2 * ((data.length : ℚ) / 256) * (∑ i in Finset.range 256, (data.count i : ℚ)) +
          256 * ((data.length : ℚ) / 256) ^ 2 := by
    rw [Finset.sum_congr rfl
      (fun i _ => by ring :
        ∀ i ∈ Finset.range 256,
          ((data.count i : ℚ) - (data.length : ℚ) / 256) ^ 2 =
            ((data.count i : ℚ)) ^ 2 -
              2 * ((data.length : ℚ) / 256) * (data.count i : ℚ) +
              ((data.length : ℚ) / 256) ^ 2)]
    rw [Finset.sum_add_distrib, Finset.sum_sub_distrib, ← Finset.mul_sum, Finset.sum_const,
      Finset.card_range, nsmul_eq_mul]
    norm_num
  rw [expand]
  field_simp
  ring

/-! ## C3 -/

/-- C3: a zero-entropy sample (all bytes equal, length ≥ 8) drives the
anomaly score to the clamp ceiling: `anomalyScore = 1` exactly (in
particular it is a well-defined real number, not NaN). -/
theorem anomalyScore_const_sample_eq_one (n c : ℕ) (hn : 8 ≤ n) (hc : c ≤ 255) :
    (fullEntropyAnalysis (List.replicate n c)).anomalyScore = 1 := by
  set data := List.replicate n c with hdata
  have hlen : data.length = n := List.length_replicate n c
  have hnz : data.length ≠ 0 := by omega
  have hcount : ∀ i : ℕ, (data.count i : ℚ) = if i = c then (n : ℚ) else 0 := by
    intro i
    rw [hdata, List.count_replicate]
    by_cases hic : i = c
    · simp [hic]
    · simp [hic]
      omega
  have hmem : c ∈ Finset.range 256 := Finset.mem_range.mpr (by omega)
  have hS1 : (∑ i in Finset.range 256, (data.count i : ℚ)) = (n : ℚ) := by
    rw [Finset.sum_congr rfl fun i _ => hcount i, Finset.sum_ite_eq' (Finset.range 256) c]
    rw [if_pos hmem]
  have hS2 : (∑ i in Finset.range 256, ((data.count i : ℚ)) ^ 2) = ((n : ℚ)) ^ 2 := by
    have : ∀ i ∈ Finset.range 256,
        ((data.count i : ℚ)) ^ 2 = if i = c then ((n : ℚ)) ^ 2 else 0 := by
      intro i _
      rw [hcount i]
      by_cases hic : i = c <;> simp [hic]
    rw [Finset.sum_congr rfl this, Finset.sum_ite_eq' (Finset.range 256) c, if_pos hmem]
  have hQn : ((n : ℚ)) ≠ 0 := Nat.cast_ne_zero.mpr (by omega)
  have hchi : chiNormalized data = (n : ℚ) - 1 := by
    unfold chiNormalized
    rw [chi2_eq_sums data hnz, hS1, hS2, hlen]
    field_simp
    ring
  have habs : |((chiNormalized data : ℚ) : ℝ)| = (n : ℝ) - 1 := by
    rw [hchi]
    push_cast
    rw [abs_of_nonneg]
    have : (8 : ℝ) ≤ (n : ℝ) := by exact_mod_cast hn
    linarith
  have hterm := anomalyRaw_ge_chiTerm data
  rw [habs] at hterm
  have hn8 : (8 : ℝ) ≤ (n : ℝ) := by exact_mod_cast hn
  have h1 : (1 : ℝ) ≤ anomalyRaw data * 3 := by nlinarith
  simp only [fullEntropyAnalysis]
  exact min_eq_right h1

/-- Witness for C3: the constant sample `replicate 8 5`. -/
theorem anomalyScore_const_sample_eq_one_witness :
    8 ≤ 8 ∧ 5 ≤ 255 ∧ (fullEntropyAnalysis (List.replicate 8 5)).anomalyScore = 1 :=
  ⟨by decide, by decide, anomalyScore_const_sample_eq_one 8 5 (by decide) (by decide)⟩

/-- Helper for C7: for every `h` in `[0,24)` exactly one gate matches, the
`find?` selection succeeds (the `gates[0]` fallback is dead), and the
selected gate's range contains `h`. -/
lemma gate_partition (h : ℚ) (h0 : 0 ≤ h) (h24 : h < 24) :
    gates.countP (gateMatches h) = 1 ∧
      (gates.find? (gateMatches h)).isSome = true ∧
      gateMatches h (temporalGate h) = true := by
  rcases lt_or_le h 3 with hc0 | hc0
  · have f0 : gateMatches h (gate0 : Gate) = true := by
      simp [gateMatches, gate0]
      constructor <;> linarith
    have f1 : gateMatches h (⟨"Pre-Dawn Liminal", 3, 5, 0.8⟩ : Gate) = false := by
      simp [gateMatches, gate0]
      intro hx
      linarith
    have f2 : gateMatches h (⟨"Dawn Gate", 5, 7, 0.9⟩ : Gate) = false := by
      simp [gateMatches, gate0]
      intro hx
      linarith
    have f3 : gateMatches h (⟨"Morning Ascent", 7, 10, 0.7⟩ : Gate) = false := by
      simp [gateMatches, gate0]
      intro hx
      linarith
    have f4 : gateMatches h (⟨"Solar Apex", 10, 13, 0.5⟩ : Gate) = false := by
      simp [gateMatches, gate0]
      intro hx
      linarith
    have f5 : gateMatches h (⟨"Afternoon Drift", 13, 16, 0.4⟩ : Gate) = false := by
      simp [gateMatches, gate0]
      intro hx
      linarith
    have f6 : gateMatches h (⟨"Twilight Gate", 16, 19, 0.85⟩ : Gate) = false := by
      simp [gateMatches, gate0]
      intro hx
      linarith
    have f7 : gateMatches h (⟨"Evening Integration", 19, 22, 0.6⟩ : Gate) = false := by
      simp [gateMatches, gate0]
      intro hx
      linarith
    have f8 : gateMatches h (⟨"Night Descent", 22, 24, 0.7⟩ : Gate) = false := by
      simp [gateMatches, gate0]
      intro hx
      linarith
    refine ⟨?_, ?_, ?_⟩
    · simp [gates, List.countP_cons, f0, f1, f2, f3, f4, f5, f6, f7, f8]
    · simp [gates, List.find?, f0, f1, f2, f3, f4, f5, f6, f7, f8]
    · simp [temporalGate, gates, List.find?, f0, f1, f2, f3, f4, f5, f6, f7, f8]
  rcases lt_or_le h 5 with hc1 | hc1
  · have f0 : gateMatches h (gate0 : Gate) = false := by
      simp [gateMatches, gate0]
      intro hx
      linarith
    have f1 : gateMatches h (⟨"Pre-Dawn Liminal", 3, 5, 0.8⟩ : Gate) = true := by
      simp [gateMatches, gate0]
      constructor <;> linarith
    have f2 : gateMatches h (⟨"Dawn Gate", 5, 7, 0.9⟩ : Gate) = false := by
      simp [gateMatches, gate0]
      intro hx
      linarith
    have f3 : gateMatches h (⟨"Morning Ascent", 7, 10, 0.7⟩ : Gate) = false := by
      simp [gateMatches, gate0]
      intro hx
      linarith
    have f4 : gateMatches h (⟨"Solar Apex", 10, 13, 0.5⟩ : Gate) = false := by
      simp [gateMatches, gate0]
      intro hx
      linarith
    have f5 : gateMatches h (⟨"Afternoon Drift", 13, 16, 0.4⟩ : Gate) = false := by
      simp [gateMatches, gate0]
      intro hx
      linarith
    have f6 : gateMatches h (⟨"Twilight Gate", 16, 19, 0.85⟩ : Gate) = false := by
      simp [gateMatches, gate0]
      intro hx
      linarith
    have f7 : gateMatches h (⟨"Evening Integration", 19, 22, 0.6⟩ : Gate) = false := by
      simp [gateMatches, gate0]
      intro hx
      linarith
    have f8 : gateMatches h (⟨"Night Descent", 22, 24, 0.7⟩ : Gate) = false := by
      simp [gateMatches, gate0]
      intro hx
      linarith
    refine ⟨?_, ?_, ?_⟩
    · simp [gates, List.countP_cons, f0, f1, f2, f3, f4, f5, f6, f7, f8]
    · simp [gates, List.find?, f0, f1, f2, f3, f4, f5, f6, f7, f8]
    · simp [temporalGate, gates, List.find?, f0, f1, f2, f3, f4, f5, f6, f7, f8]
  rcases lt_or_le h 7 with hc2 | hc2
  · have f0 : gateMatches h (gate0 : Gate) = false := by
      simp [gateMatches, gate0]
      intro hx
      linarith
    have f1 : gateMatches h (⟨"Pre-Dawn Liminal", 3, 5, 0.8⟩ : Gate) = false := by
      simp [gateMatches, gate0]
      intro hx
      linarith
    have f2 : gateMatches h (⟨"Dawn Gate", 5, 7, 0.9⟩ : Gate) = true := by
      simp [gateMatches, gate0]
      constructor <;> linarith
    have f3 : gateMatches h (⟨"Morning Ascent", 7, 10, 0.7⟩ : Gate) = false := by
      simp [gateMatches, gate0]
      intro hx
      linarith
    have f4 : gateMatches h (⟨"Solar Apex", 10, 13, 0.5⟩ : Gate) = false := by
      simp [gateMatches, gate0]
      intro hx
      linarith
    have f5 : gateMatches h (⟨"Afternoon Drift", 13, 16, 0.4⟩ : Gate) = false := by
      simp [gateMatches, gate0]
      intro hx
      linarith
    have f6 : gateMatches h (⟨"Twilight Gate", 16, 19, 0.85⟩ : Gate) = false := by
      simp [gateMatches, gate0]
      intro hx
      linarith
    have f7 : gateMatches h (⟨"Evening Integration", 19, 22, 0.6⟩ : Gate) = false := by
      simp [gateMatches, gate0]
      intro hx
      linarith
    have f8 : gateMatches h (⟨"Night Descent", 22, 24, 0.7⟩ : Gate) = false := by
      simp [gateMatches, gate0]
      intro hx
      linarith
    refine ⟨?_, ?_, ?_⟩
    · simp [gates, List.countP_cons, f0, f1, f2, f3, f4, f5, f6, f7, f8]
    · simp [gates, List.find?, f0, f1, f2, f3, f4, f5, f6, f7, f8]
    · simp [temporalGate, gates, List.find?, f0, f1, f2, f3, f4, f5, f6, f7, f8]
  rcases lt_or_le h 10 with hc3 | hc3
  · have f0 : gateMatches h (gate0 : Gate) = false := by
      simp [gateMatches, gate0]
      intro hx
      linarith
    have f1 : gateMatches h (⟨"Pre-Dawn Liminal", 3, 5, 0.8⟩ : Gate) = false := by
      simp [gateMatches, gate0]
      intro hx
      linarith
    have f2 : gateMatches h (⟨"Dawn Gate", 5, 7, 0.9⟩ : Gate) = false := by
      simp [gateMatches, gate0]
      intro hx
      linarith
    have f3 : gateMatches h (⟨"Morning Ascent", 7, 10, 0.7⟩ : Gate) = true := by
      simp [gateMatches, gate0]
      constructor <;> linarith
    have f4 : gateMatches h (⟨"Solar Apex", 10, 13, 0.5⟩ : Gate) = false := by
      simp [gateMatches, gate0]
      intro hx
      linarith
    have f5 : gateMatches h (⟨"Afternoon Drift", 13, 16, 0.4⟩ : Gate) = false := by
      simp [gateMatches, gate0]
      intro hx
      linarith
    have f6 : gateMatches h (⟨"Twilight Gate", 16, 19, 0.85⟩ : Gate) = false := by
      simp [gateMatches, gate0]
      intro hx
      linarith
    have f7 : gateMatches h (⟨"Evening Integration", 19, 22, 0.6⟩ : Gate) = false := by
      simp [gateMatches, gate0]
      intro hx
      linarith
    have f8 : gateMatches h (⟨"Night Descent", 22, 24, 0.7⟩ : Gate) = false := by
      simp [gateMatches, gate0]
      intro hx
      linarith
    refine ⟨?_, ?_, ?_⟩
    · simp [gates, List.countP_cons, f0, f1, f2, f3, f4, f5, f6, f7, f8]
    · simp [gates, List.find?, f0, f1, f2, f3, f4, f5, f6, f7, f8]
    · simp [temporalGate, gates, List.find?, f0, f1, f2, f3, f4, f5, f6, f7, f8]
  rcases lt_or_le h 13 with hc4 | hc4
  · have f0 : gateMatches h (gate0 : Gate) = false := by
      simp [gateMatches, gate0]
      intro hx
      linarith
    have f1 : gateMatches h (⟨"Pre-Dawn Liminal", 3, 5, 0.8⟩ : Gate) = false := by
      simp [gateMatches, gate0]
      intro hx
      linarith
    have f2 : gateMatches h (⟨"Dawn Gate", 5, 7, 0.9⟩ : Gate) = false := by
      simp [gateMatches, gate0]
      intro hx
      linarith
    have f3 : gateMatches h (⟨"Morning Ascent", 7, 10, 0.7⟩ : Gate) = false := by
      simp [gateMatches, gate0]
      intro hx
      linarith
    have f4 : gateMatches h (⟨"Solar Apex", 10, 13, 0.5⟩ : Gate) = true := by
      simp [gateMatches, gate0]
      constructor <;> linarith
    have f5 : gateMatches h (⟨"Afternoon Drift", 13, 16, 0.4⟩ : Gate) = false := by
      simp [gateMatches, gate0]
      intro hx
      linarith
    have f6 : gateMatches h (⟨"Twilight Gate", 16, 19, 0.85⟩ : Gate) = false := by
      simp [gateMatches, gate0]
      intro hx
      linarith
    have f7 : gateMatches h (⟨"Evening Integration", 19, 22, 0.6⟩ : Gate) = false := by
      simp [gateMatches, gate0]
      intro hx
      linarith
    have f8 : gateMatches h (⟨"Night Descent", 22, 24, 0.7⟩ : Gate) = false := by
      simp [gateMatches, gate0]
      intro hx
      linarith
    refine ⟨?_, ?_, ?_⟩
    · simp [gates, List.countP_cons, f0, f1, f2, f3, f4, f5, f6, f7, f8]
    · simp [gates, List.find?, f0, f1, f2, f3, f4, f5, f6, f7, f8]
    · simp [temporalGate, gates, List.find?, f0, f1, f2, f3, f4, f5, f6, f7, f8]
  rcases lt_or_le h 16 with hc5 | hc5
  · have f0 : gateMatches h (gate0 : Gate) = false := by
      simp [gateMatches, gate0]
      intro hx
      linarith
    have f1 : gateMatches h (⟨"Pre-Dawn Liminal", 3, 5, 0.8⟩ : Gate) = false := by
      simp [gateMatches, gate0]
      intro hx
      linarith
    have f2 : gateMatches h (⟨"Dawn Gate", 5, 7, 0.9⟩ : Gate) = false := by
      simp [gateMatches, gate0]
      intro hx
      linarith
    have f3 : gateMatches h (⟨"Morning Ascent", 7, 10, 0.7⟩ : Gate) = false := by
      simp [gateMatches, gate0]
      intro hx
      linarith
    have f4 : gateMatches h (⟨"Solar Apex", 10, 13, 0.5⟩ : Gate) = false := by
      simp [gateMatches, gate0]
      intro hx
      linarith
    have f5 : gateMatches h (⟨"Afternoon Drift", 13, 16, 0.4⟩ : Gate) = true := by
      simp [gateMatches, gate0]
      constructor <;> linarith
    have f6 : gateMatches h (⟨"Twilight Gate", 16, 19, 0.85⟩ : Gate) = false := by
      simp [gateMatches, gate0]
      intro hx
      linarith
    have f7 : gateMatches h (⟨"Evening Integration", 19, 22, 0.6⟩ : Gate) = false := by
      simp [gateMatches, gate0]
      intro hx
      linarith
    have f8 : gateMatches h (⟨"Night Descent", 22, 24, 0.7⟩ : Gate) = false := by
      simp [gateMatches, gate0]
      intro hx
      linarith
    refine ⟨?_, ?_, ?_⟩
    · simp [gates, List.countP_cons, f0, f1, f2, f3, f4, f5, f6, f7, f8]
    · simp [gates, List.find?, f0, f1, f2, f3, f4, f5, f6, f7, f8]
    · simp [temporalGate, gates, List.find?, f0, f1, f2, f3, f4, f5, f6, f7, f8]
  rcases lt_or_le h 19 with hc6 | hc6
  · have f0 : gateMatches h (gate0 : Gate) = false := by
      simp [gateMatches, gate0]
      intro hx
      linarith
    have f1 : gateMatches h (⟨"Pre-Dawn Liminal", 3, 5, 0.8⟩ : Gate) = false := by
      simp [gateMatches, gate0]
      intro hx
      linarith
    have f2 : gateMatches h (⟨"Dawn Gate", 5, 7, 0.9⟩ : Gate) = false := by
      simp [gateMatches, gate0]
      intro hx
      linarith
    have f3 : gateMatches h (⟨"Morning Ascent", 7, 10, 0.7⟩ : Gate) = false := by
      simp [gateMatches, gate0]
      intro hx
      linarith
    have f4 : gateMatches h (⟨"Solar Apex", 10, 13, 0.5⟩ : Gate) = false := by
      simp [gateMatches, gate0]
      intro hx
      linarith
    have f5 : gateMatches h (⟨"Afternoon Drift", 13, 16, 0.4⟩ : Gate) = false := by
      simp [gateMatches, gate0]
      intro hx
      linarith
    have f6 : gateMatches h (⟨"Twilight Gate", 16, 19, 0.85⟩ : Gate) = true := by
      simp [gateMatches, gate0]
      constructor <;> linarith
    have f7 : gateMatches h (⟨"Evening Integration", 19, 22, 0.6⟩ : Gate) = false := by
      simp [gateMatches, gate0]
      intro hx
      linarith
    have f8 : gateMatches h (⟨"Night Descent", 22, 24, 0.7⟩ : Gate) = false := by
      simp [gateMatches, gate0]
      intro hx
      linarith
    refine ⟨?_, ?_, ?_⟩
    · simp [gates, List.countP_cons, f0, f1, f2, f3, f4, f5, f6, f7, f8]
    · simp [gates, List.find?, f0, f1, f2, f3, f4, f5, f6, f7, f8]
    · simp [temporalGate, gates, List.find?, f0, f1, f2, f3, f4, f5, f6, f7, f8]
  rcases lt_or_le h 22 with hc7 | hc7
  · have f0 : gateMatches h (gate0 : Gate) = false := by
      simp [gateMatches, gate0]
      intro hx
      linarith
    have f1 : gateMatches h (⟨"Pre-Dawn Liminal", 3, 5, 0.8⟩ : Gate) = false := by
      simp [gateMatches, gate0]
      intro hx
      linarith
    have f2 : gateMatches h (⟨"Dawn Gate", 5, 7, 0.9⟩ : Gate) = false := by
      simp [gateMatches, gate0]
      intro hx
      linarith
    have f3 : gateMatches h (⟨"Morning Ascent", 7, 10, 0.7⟩ : Gate) = false := by
      simp [gateMatches, gate0]
      intro hx
      linarith
    have f4 : gateMatches h (⟨"Solar Apex", 10, 13, 0.5⟩ : Gate) = false := by
      simp [gateMatches, gate0]
      intro hx
      linarith
    have f5 : gateMatches h (⟨"Afternoon Drift", 13, 16, 0.4⟩ : Gate) = false := by
      simp [gateMatches, gate0]
      intro hx
      linarith
    have f6 : gateMatches h (⟨"Twilight Gate", 16, 19, 0.85⟩ : Gate) = false := by
      simp [gateMatches, gate0]
      intro hx
      linarith
    have f7 : gateMatches h (⟨"Evening Integration", 19, 22, 0.6⟩ : Gate) = true := by
      simp [gateMatches, gate0]
      constructor <;> linarith
    have f8 : gateMatches h (⟨"Night Descent", 22, 24, 0.7⟩ : Gate) = false := by
      simp [gateMatches, gate0]
      intro hx
      linarith
    refine ⟨?_, ?_, ?_⟩
    · simp [gates, List.countP_cons, f0, f1, f2, f3, f4, f5, f6, f7, f8]
    · simp [gates, List.find?, f0, f1, f2, f3, f4, f5, f6, f7, f8]
    · simp [temporalGate, gates, List.find?, f0, f1, f2, f3, f4, f5, f6, f7, f8]
  have f0 : gateMatches h (gate0 : Gate) = false := by
    simp [gateMatches, gate0]
    intro hx
    linarith
  have f1 : gateMatches h (⟨"Pre-Dawn Liminal", 3, 5, 0.8⟩ : Gate) = false := by
    simp [gateMatches, gate0]
    intro hx
    linarith
  have f2 : gateMatches h (⟨"Dawn Gate", 5, 7, 0.9⟩ : Gate) = false := by
    simp [gateMatches, gate0]
    intro hx
    linarith
  have f3 : gateMatches h (⟨"Morning Ascent", 7, 10, 0.7⟩ : Gate) = false := by
    simp [gateMatches, gate0]
    intro hx
    linarith
  have f4 : gateMatches h (⟨"Solar Apex", 10, 13, 0.5⟩ : Gate) = false := by
    simp [gateMatches, gate0]
    intro hx
    linarith
  have f5 : gateMatches h (⟨"Afternoon Drift", 13, 16, 0.4⟩ : Gate) = false := by
    simp [gateMatches, gate0]
    intro hx
    linarith
  have f6 : gateMatches h (⟨"Twilight Gate", 16, 19, 0.85⟩ : Gate) = false := by
    simp [gateMatches, gate0]
    intro hx
    linarith
  have f7 : gateMatches h (⟨"Evening Integration", 19, 22, 0.6⟩ : Gate) = false := by
    simp [gateMatches, gate0]
    intro hx
    linarith
  have f8 : gateMatches h (⟨"Night Descent", 22, 24, 0.7⟩ : Gate) = true := by
    simp [gateMatches, gate0]
    constructor <;> linarith
  refine ⟨?_, ?_, ?_⟩
  · simp [gates, List.countP_cons, f0, f1, f2, f3, f4, f5, f6, f7, f8]
  · simp [gates, List.find?, f0, f1, f2, f3, f4, f5, f6, f7, f8]
  · simp [temporalGate, gates, List.find?, f0, f1, f2, f3, f4, f5, f6, f7, f8]

/-! ## C7 -/

/-- C7: for every fractional hour `h = hour + minute/60` (hour in 0..23,
minute in 0..59), exactly one of `temporalGate`'s nine `[start,end)` ranges
contains `h`, the `gates[0]` fallback is never taken, and the selected gate
is the unique matching range. -/
theorem temporalGate_unique_match (hour minute : ℕ) (hh : hour < 24) (hm : minute < 60) :
    gates.countP (gateMatches ((hour : ℚ) + (minute : ℚ) / 60)) = 1 ∧
      (gates.find? (gateMatches ((hour : ℚ) + (minute : ℚ) / 60))).isSome = true ∧
      gateMatches ((hour : ℚ) + (minute : ℚ) / 60)
        (temporalGate ((hour : ℚ) + (minute : ℚ) / 60)) = true := by
  have hhq : ((hour : ℚ)) ≤ 23 := by exact_mod_cast Nat.lt_succ_iff.mp hh
  have hmq : ((minute : ℚ)) ≤ 59 := by exact_mod_cast Nat.lt_succ_iff.mp hm
  have h0 : (0 : ℚ) ≤ (hour : ℚ) + (minute : ℚ) / 60 := by positivity
  have h24 : (hour : ℚ) + (minute : ℚ) / 60 < 24 := by linarith
  exact gate_partition _ h0 h24

/-- Witness for C7 at 16:45 (inside the Twilight Gate). -/
theorem temporalGate_unique_match_witness :
    16 < 24 ∧ 45 < 60 ∧
      (gates.countP (gateMatches ((16 : ℚ) + (45 : ℚ) / 60)) = 1 ∧
        (gates.find? (gateMatches ((16 : ℚ) + (45 : ℚ) / 60))).isSome = true ∧
        gateMatches ((16 : ℚ) + (45 : ℚ) / 60)
          (temporalGate ((16 : ℚ) + (45 : ℚ) / 60)) = true) :=
  ⟨by decide, by decide, temporalGate_unique_match 16 45 (by decide) (by decide)⟩

/-! ## C9 -/

/-- `n·Σ(xᵢ-x̄)(yᵢ-ȳ) = n·Σxᵢyᵢ - Σxᵢ·Σyᵢ`: the bridge between the
textbook covariance and the computational formula of `serialCorrelation`. -/
lemma mul_sum_cov (n : ℕ) (x y : ℕ → ℚ) (hn : ((n : ℚ)) ≠ 0) :
    (n : ℚ) * (∑ i in Finset.range n,
        (x i - (∑ j in Finset.range n, x j) / n) * (y i - (∑ j in Finset.range n, y j) / n)) =
      (n : ℚ) * (∑ i in Finset.range n, x i * y i) -
        (∑ i in Finset.range n, x i) * (∑ j in Finset.range n, y j) := by
  have hterm : ∀ i ∈ Finset.range n,
      (x i - (∑ j in Finset.range n, x j) / n) * (y i - (∑ j in Finset.range n, y j) / n) =
        x i * y i - ((∑ j in Finset.range n, x j) / n) * y i -
          ((∑ j in Finset.range n, y j) / n) * x i +
          ((∑ j in Finset.range n, x j) / n) * ((∑ j in Finset.range n, y j) / n) :=
    fun i _ => by ring
  rw [Finset.sum_congr rfl hterm, Finset.sum_add_distrib, Finset.sum_sub_distrib,
    Finset.sum_sub_distrib, ← Finset.mul_sum, ← Finset.mul_sum, Finset.sum_const,
    Finset.card_range, nsmul_eq_mul]
  field_simp
  ring

/-- Let-free restatement of `pearson`. -/
lemma pearson_eq (n : ℕ) (x y : ℕ → ℚ) :
    pearson n x y =
      (((∑ i in Finset.range n,
          (x i - (∑ j in Finset.range n, x j) / n) * (y i - (∑ j in Finset.range n, y j) / n) :
            ℚ)) : ℝ) /
        Real.sqrt ((((∑ i in Finset.range n, (x i - (∑ j in Finset.range n, x j) / n) ^ 2) *
            (∑ i in Finset.range n, (y i - (∑ j in Finset.range n, y j) / n) ^ 2) : ℚ)) : ℝ) :=
  rfl

/-- Unfolding lemma for `serialCorrelation` (let-free form). -/
lemma serialCorrelation_def (data : List ℕ) :
    serialCorrelation data =
      if Real.sqrt ((scDenX data * scDenY data : ℚ) : ℝ) = 0 then 0
      else ((scNum data : ℚ) : ℝ) / Real.sqrt ((scDenX data * scDenY data : ℚ) : ℝ) := rfl

/-- C9: `serialCorrelation` returns exactly 0 whenever the Pearson
denominator vanishes (in particular on all-equal samples), and otherwise it
equals the textbook Pearson correlation of the sequence with itself
shifted by one position. -/
theorem serialCorrelation_degenerate_and_pearson (data : List ℕ) (h : 2 ≤ data.length) :
    (Real.sqrt ((scDenX data * scDenY data : ℚ) : ℝ) = 0 → serialCorrelation data = 0) ∧
      (Real.sqrt ((scDenX data * scDenY data : ℚ) : ℝ) ≠ 0 →
        serialCorrelation data = pearson (scLen data) (dAt data) (fun i => dAt data (i + 1))) ∧
      (∀ c : ℕ, data = List.replicate data.length c → serialCorrelation data = 0) := by
  have hn1 : 1 ≤ scLen data := by unfold scLen; omega
  have hQn : ((scLen data : ℚ)) ≠ 0 := Nat.cast_ne_zero.mpr (by omega)
  have hRn : ((scLen data : ℝ)) ≠ 0 := Nat.cast_ne_zero.mpr (by omega)
  refine ⟨fun hden => by rw [serialCorrelation_def, if_pos hden], fun hden => ?_,
    fun c hrep => ?_⟩
  · -- non-degenerate case: the computational formula refines the textbook one
    have hsq : ∀ z : ℕ → ℚ, ∀ m : ℚ,
        (∑ i in Finset.range (scLen data), (z i - m) ^ 2) =
          ∑ i in Finset.range (scLen data), (z i - m) * (z i - m) :=
      fun z m => Finset.sum_congr rfl fun i _ => pow_two (z i - m)
    have hcov := mul_sum_cov (scLen data) (dAt data) (fun i => dAt data (i + 1)) hQn
    have hvx := mul_sum_cov (scLen data) (dAt data) (dAt data) hQn
    have hvy := mul_sum_cov (scLen data) (fun i => dAt data (i + 1))
      (fun i => dAt data (i + 1)) hQn
    beta_reduce at hcov hvy
    rw [← hsq] at hvx hvy
    rw [serialCorrelation_def, if_neg hden, pearson_eq]
    set covq : ℚ := ∑ i in Finset.range (scLen data),
      (dAt data i - (∑ j in Finset.range (scLen data), dAt data j) / (scLen data : ℚ)) *
        (dAt data (i + 1) -
          (∑ j in Finset.range (scLen data), dAt data (j + 1)) / (scLen data : ℚ)) with hcovq
    set vxq : ℚ := ∑ i in Finset.range (scLen data),
      (dAt data i - (∑ j in Finset.range (scLen data), dAt data j) / (scLen data : ℚ)) ^ 2
      with hvxq
    set vyq : ℚ := ∑ i in Finset.range (scLen data),
      (dAt data (i + 1) -
        (∑ j in Finset.range (scLen data), dAt data (j + 1)) / (scLen data : ℚ)) ^ 2 with hvyq
    have idnum : scNum data = (scLen data : ℚ) * covq := by
      rw [hcov]
      unfold scNum sumXY sumX sumY
      rfl
    have idx : scDenX data = (scLen data : ℚ) * vxq := by
      rw [hvx]
      unfold scDenX sumX2 sumX
      simp only [pow_two]
    have idy : scDenY data = (scLen data : ℚ) * vyq := by
      rw [hvy]
      unfold scDenY sumY2 sumY
      simp only [pow_two]
    have hsqrt : Real.sqrt ((scDenX data * scDenY data : ℚ) : ℝ) =
        (scLen data : ℝ) * Real.sqrt ((vxq * vyq : ℚ) : ℝ) := by
      rw [idx, idy]
      push_cast
      rw [show ((scLen data : ℝ)) * (vxq : ℝ) * ((scLen data : ℝ) * (vyq : ℝ)) =
        ((scLen data : ℝ)) ^ 2 * ((vxq : ℝ) * (vyq : ℝ)) by ring]
      rw [Real.sqrt_mul (by positivity), Real.sqrt_sq (by positivity)]
    rw [hsqrt, idnum]
    push_cast
    rw [mul_div_mul_left _ _ hRn]
  · -- all-equal sample: the first denominator factor is identically 0
    have hget : ∀ i, i < data.length → data.getD i 0 = c := by
      intro i hi
      rw [hrep, List.getD_eq_getElem?_getD]
      simp [List.getElem?_replicate, hi]
    have hd : ∀ i ∈ Finset.range (scLen data), dAt data i = (c : ℚ) := by
      intro i hi
      have hlt : i < data.length := by
        have := Finset.mem_range.mp hi
        unfold scLen at this
        omega
      unfold dAt
      rw [hget i hlt]
    have hx1 : sumX data = (scLen data : ℚ) * (c : ℚ) := by
      unfold sumX
      rw [Finset.sum_congr rfl hd, Finset.sum_const, Finset.card_range, nsmul_eq_mul]
    have hx2 : sumX2 data = (scLen data : ℚ) * (c : ℚ) ^ 2 := by
      unfold sumX2
      rw [Finset.sum_congr rfl fun i hi => by rw [hd i hi], Finset.sum_const,
        Finset.card_range, nsmul_eq_mul]
    have hdx : scDenX data = 0 := by
      unfold scDenX
      rw [hx1, hx2]
      ring
    have hzero : Real.sqrt ((scDenX data * scDenY data : ℚ) : ℝ) = 0 := by
      rw [hdx]
      norm_num
    rw [serialCorrelation_def, if_pos hzero]

/-- Witness for C9 at the all-equal sample `[3,3,3]`. -/
theorem serialCorrelation_degenerate_and_pearson_witness :
    2 ≤ ([3, 3, 3] : List ℕ).length ∧
      ((Real.sqrt ((scDenX [3, 3, 3] * scDenY [3, 3, 3] : ℚ) : ℝ) = 0 →
          serialCorrelation [3, 3, 3] = 0) ∧
        (Real.sqrt ((scDenX [3, 3, 3] * scDenY [3, 3, 3] : ℚ) : ℝ) ≠ 0 →
          serialCorrelation [3, 3, 3] =
            pearson (scLen [3, 3, 3]) (dAt [3, 3, 3]) (fun i => dAt [3, 3, 3] (i + 1))) ∧
        (∀ c : ℕ, ([3, 3, 3] : List ℕ) = List.replicate ([3, 3, 3] : List ℕ).length c →
          serialCorrelation [3, 3, 3] = 0)) :=
  ⟨by decide, serialCorrelation_degenerate_and_pearson [3, 3, 3] (by decide)⟩

/-! ## C8 -/

lemma synodicMonth_pos : (0 : ℝ) < (synodicMonth : ℝ) := by
  norm_num [synodicMonth]

/-- Evaluate `jsMod` when the quotient is nonnegative. -/
lemma jsMod_of_nonneg (x m : ℝ) (h : 0 ≤ x / m) : jsMod x m = x - m * ⌊x / m⌋ := by
  unfold jsMod jsTrunc
  rw [if_pos h]

/-- Evaluate `jsMod` when the quotient is negative. -/
lemma jsMod_of_neg (x m : ℝ) (h : ¬ 0 ≤ x / m) : jsMod x m = x - m * ⌈x / m⌉ := by
  unfold jsMod jsTrunc
  rw [if_neg h]

/-- The JavaScript double-mod idiom `((x % m) + m) % m` computes the
mathematical (floor) modulus: `m * fract (x/m)`. -/
lemma jsMod_fold (x m : ℝ) (hm : 0 < m) :
    jsMod (jsMod x m + m) m = m * Int.fract (x / m) := by
  have hm0 : m ≠ 0 := ne_of_gt hm
  have hf0 : 0 ≤ Int.fract (x / m) := Int.fract_nonneg _
  have hf1 : Int.fract (x / m) < 1 := Int.fract_lt_one _
  have hfract : Int.fract (x / m) = x / m - ⌊x / m⌋ := rfl
  rcases le_or_lt 0 x with hx | hx
  · -- nonnegative input: the first `%` already lands in `[0, m)`
    have hq : 0 ≤ x / m := div_nonneg hx hm.le
    have h1 : jsMod x m = m * Int.fract (x / m) := by
      rw [jsMod_of_nonneg x m hq, hfract]
      field_simp
    rw [h1]
    have harg : (m * Int.fract (x / m) + m) / m = Int.fract (x / m) + 1 := by
      field_simp
      ring
    rw [jsMod_of_nonneg _ m (by rw [harg]; linarith), harg, Int.floor_add_one, Int.floor_fract]
    push_cast
    ring
  · -- negative input: the first `%` lands in `(-m, 0]`, the shift corrects it
    have hq : x / m < 0 := div_neg_of_neg_of_pos hx hm
    by_cases hf : Int.fract (x / m) = 0
    · -- `m` divides `x` exactly
      have hfloor : ((⌊x / m⌋ : ℝ)) = x / m := by
        rw [hfract] at hf
        linarith
      have h1 : jsMod x m = 0 := by
        rw [jsMod_of_neg x m (not_le.mpr hq),
          show ⌈x / m⌉ = ⌊x / m⌋ from by rw [← Int.ceil_intCast (α := ℝ) ⌊x / m⌋, hfloor],
          hfloor]
        field_simp
      rw [h1]
      have harg : ((0 : ℝ) + m) / m = 1 := by field_simp
      rw [jsMod_of_nonneg _ m (by rw [harg]; norm_num), harg, hf]
      norm_num
    · -- `x/m` is not an integer: `ceil = floor + 1`
      have hfpos : 0 < Int.fract (x / m) := lt_of_le_of_ne hf0 (Ne.symm hf)
      have hceilf : ⌈x / m⌉ = ⌊x / m⌋ + 1 := by
        rw [Int.ceil_eq_iff]
        constructor
        · push_cast
          rw [hfract] at hfpos
          linarith
        · push_cast
          have := Int.lt_floor_add_one (x / m)
          linarith
      have h1 : jsMod x m = m * Int.fract (x / m) - m := by
        rw [jsMod_of_neg x m (not_le.mpr hq), hceilf, hfract]
        push_cast
        field_simp
        ring
      have hval : jsMod x m + m = m * Int.fract (x / m) := by rw [h1]; ring
      rw [hval]
      have harg : (m * Int.fract (x / m)) / m = Int.fract (x / m) := by field_simp
      rw [jsMod_of_nonneg _ m (by rw [harg]; exact hf0), harg, Int.floor_fract]
      push_cast
      ring

/-- The folded phase equals `cycle * fract (daysSince / cycle)`. -/
lemma lunarPhaseDay_eq (t : ℝ) :
    lunarPhaseDay t = (synodicMonth : ℝ) * Int.fract (lunarDaysSince t / (synodicMonth : ℝ)) :=
  jsMod_fold _ _ synodicMonth_pos

lemma lunarDaysSince_shift (t : ℝ) :
    lunarDaysSince (t + (synodicMonth : ℝ) * 86400000) = lunarDaysSince t + (synodicMonth : ℝ) := by
  unfold lunarDaysSince
  field_simp
  ring

lemma lunarPhaseDay_periodic (t : ℝ) :
    lunarPhaseDay (t + (synodicMonth : ℝ) * 86400000) = lunarPhaseDay t := by
  rw [lunarPhaseDay_eq, lunarPhaseDay_eq, lunarDaysSince_shift, add_div,
    div_self (ne_of_gt synodicMonth_pos), Int.fract_add_one]

/-- C8: `lunarPhase` is periodic with period 29.53058770576 days — shifting
the date by one synodic month (in milliseconds) leaves both the phase
bucket name and the energy unchanged (here exactly equal) — and the folded
phase always lies in `[0, cycle)`, also for dates before the epoch. -/
theorem lunarPhase_periodic (t : ℝ) :
    lunarName (t + (synodicMonth : ℝ) * 86400000) = lunarName t ∧
      lunarEnergy (t + (synodicMonth : ℝ) * 86400000) = lunarEnergy t ∧
      0 ≤ lunarPhaseDay t ∧ lunarPhaseDay t < (synodicMonth : ℝ) := by
  have hper := lunarPhaseDay_periodic t
  have hnorm : lunarNormalized (t + (synodicMonth : ℝ) * 86400000) = lunarNormalized t := by
    unfold lunarNormalized
    rw [hper]
  refine ⟨?_, ?_, ?_, ?_⟩
  · unfold lunarName lunarIdx
    rw [hnorm]
  · unfold lunarEnergy
    rw [hnorm]
  · rw [lunarPhaseDay_eq]
    exact mul_nonneg synodicMonth_pos.le (Int.fract_nonneg _)
  · rw [lunarPhaseDay_eq]
    calc (synodicMonth : ℝ) * Int.fract (lunarDaysSince t / (synodicMonth : ℝ)) <
        (synodicMonth : ℝ) * 1 :=
          mul_lt_mul_of_pos_left (Int.fract_lt_one _) synodicMonth_pos
    _ = (synodicMonth : ℝ) := mul_one _

/-! ## C4 -/

/-- Shannon entropy of a 256-byte sample in which every occurring value
appears exactly twice is exactly 7 bits. -/
lemma shannonEntropy_all_double (data : List ℕ) (hlen : data.length = 256)
    (hcount : ∀ k ∈ data.toFinset, data.count k = 2) :
    shannonEntropy data = 7 := by
  have hcard : data.toFinset.card = 128 := by
    have hsum := List.sum_toFinset_count_eq_length data
    rw [Finset.sum_congr rfl hcount, Finset.sum_const, smul_eq_mul, hlen] at hsum
    omega
  have hlog : Real.logb 2 ((2 : ℝ) / 256) = -7 := by
    rw [Real.logb_div (by norm_num) (by norm_num),
      show (256 : ℝ) = 2 ^ (8 : ℕ) by norm_num, Real.logb_pow,
      Real.logb_self_eq_one (by norm_num)]
    norm_num
  have hterm : ∀ k ∈ data.toFinset,
      -(((data.count k : ℝ)) / (data.length : ℝ) *
        Real.logb 2 ((data.count k : ℝ) / (data.length : ℝ))) = 7 / 128 := by
    intro k hk
    rw [hcount k hk, hlen]
    push_cast
    rw [hlog]
    norm_num
  unfold shannonEntropy
  rw [Finset.sum_congr rfl hterm, Finset.sum_const, hcard, nsmul_eq_mul]
  norm_num

lemma sumX_nat (data : List ℕ) :
    sumX data = ((∑ i in Finset.range (scLen data), data.getD i 0 : ℕ) : ℚ) := by
  unfold sumX dAt
  push_cast
  rfl

lemma sumY_nat (data : List ℕ) :
    sumY data = ((∑ i in Finset.range (scLen data), data.getD (i + 1) 0 : ℕ) : ℚ) := by
  unfold sumY dAt
  push_cast
  rfl

lemma sumXY_nat (data : List ℕ) :
    sumXY data =
      ((∑ i in Finset.range (scLen data), data.getD i 0 * data.getD (i + 1) 0 : ℕ) : ℚ) := by
  unfold sumXY dAt
  push_cast
  rfl

lemma sumX2_nat (data : List ℕ) :
    sumX2 data = ((∑ i in Finset.range (scLen data), data.getD i 0 ^ 2 : ℕ) : ℚ) := by
  unfold sumX2 dAt
  push_cast
  rfl

lemma sumY2_nat (data : List ℕ) :
    sumY2 data = ((∑ i in Finset.range (scLen data), data.getD (i + 1) 0 ^ 2 : ℕ) : ℚ) := by
  unfold sumY2 dAt
  push_cast
  rfl

/-- When every byte is at most 127, both Monte-Carlo coordinates stay below
1/2 and every point lands inside the unit circle. -/
lemma mcInside_all_low (data : List ℕ) (hlow : ∀ b ∈ data, b ≤ 127) :
    mcInside data = mcPairs data := by
  unfold mcInside
  rw [Finset.filter_true_of_mem, Finset.card_range]
  intro i _
  have hb : ∀ j : ℕ, data.getD j 0 ≤ 127 := by
    intro j
    rcases lt_or_le j data.length with hj | hj
    · rw [List.getD_eq_getElem?_getD, List.getElem?_eq_getElem hj]
      simpa using hlow _ (List.getElem_mem hj)
    · rw [List.getD_eq_getElem?_getD, List.getElem?_eq_none hj]
      simp
  have hx : mcX data i ≤ 32639 / 65536 := by
    have h1 := hb (i * 4)
    have h2 := hb (i * 4 + 1)
    unfold mcX
    rw [div_le_div_right (by norm_num : (0 : ℚ) < 65536)]
    exact_mod_cast (by omega :
      data.getD (i * 4) 0 * 256 + data.getD (i * 4 + 1) 0 ≤ 32639)
  have hy : mcY data i ≤ 32639 / 65536 := by
    have h1 := hb (i * 4 + 2)
    have h2 := hb (i * 4 + 3)
    unfold mcY
    rw [div_le_div_right (by norm_num : (0 : ℚ) < 65536)]
    exact_mod_cast (by omega :
      data.getD (i * 4 + 2) 0 * 256 + data.getD (i * 4 + 3) 0 ≤ 32639)
  have hx0 : 0 ≤ mcX data i := by unfold mcX; positivity
  have hy0 : 0 ≤ mcY data i := by unfold mcY; positivity
  nlinarith [pow_le_pow_left hx0 hx 2, pow_le_pow_left hy0 hy 2]

set_option maxHeartbeats 4000000 in
/-- C4 counterexample: on `sampleAnomalyMid` the final anomaly score
exceeds 0.1, yet the polarity bias is `-0.1` rather than `+0.2` — the
source branches on the pre-scaling anomaly value (> 0.1), which in terms of
the final score means > 0.3, not > 0.1. -/
theorem polarityBias_final_threshold_cex :
    (fullEntropyAnalysis sampleAnomalyMid).anomalyScore > 1 / 10 ∧
      polarityBias sampleAnomalyMid = -(1 / 10) ∧
      polarityBias sampleAnomalyMid ≠ 1 / 5 := by
  have hsh : shannonEntropy sampleAnomalyMid = 7 :=
    shannonEntropy_all_double _ (by decide) (by decide)
  have hedev : entropyDev sampleAnomalyMid = 1 / 8 := by
    unfold entropyDev
    rw [hsh]
    norm_num
  have hruns : (runsTest sampleAnomalyMid).runs = 128 := by decide
  have hlen : sampleAnomalyMid.length = 256 := by decide
  have hdev : (runsTest sampleAnomalyMid).deviation = -1 / 257 := by
    rw [runsTest_deviation_def, hruns, hlen]
    norm_num
  have hdev_abs : |(((runsTest sampleAnomalyMid).deviation : ℚ) : ℝ)| = 1 / 257 := by
    rw [hdev, show (((-1 / 257 : ℚ)) : ℝ) = -(1 / 257 : ℝ) by norm_num, abs_neg,
      abs_of_nonneg (by norm_num : (0 : ℝ) ≤ 1 / 257)]
  have hS1 : (∑ i in Finset.range 256, sampleAnomalyMid.count i) = 256 := by decide
  have hS2 : (∑ i in Finset.range 256, (sampleAnomalyMid.count i) ^ 2) = 512 := by decide
  have hchi : chiNormalized sampleAnomalyMid = 1 / 255 := by
    unfold chiNormalized
    rw [chi2_eq_sums _ (by rw [hlen]; omega),
      show (∑ i in Finset.range 256, ((sampleAnomalyMid.count i : ℚ)) ^ 2)
        = ((512 : ℕ) : ℚ) from by rw [← hS2]; push_cast; rfl,
      show (∑ i in Finset.range 256, ((sampleAnomalyMid.count i : ℚ)))
        = ((256 : ℕ) : ℚ) from by rw [← hS1]; push_cast; rfl,
      hlen]
    norm_num
  have hchi_abs : |((chiNormalized sampleAnomalyMid : ℚ) : ℝ)| = 1 / 255 := by
    rw [hchi, show (((1 / 255 : ℚ)) : ℝ) = (1 / 255 : ℝ) by norm_num,
      abs_of_nonneg (by norm_num : (0 : ℝ) ≤ 1 / 255)]
  have hscl : scLen sampleAnomalyMid = 255 := by unfold scLen; rw [hlen]
  have hXY : sumXY sampleAnomalyMid = ((1027167 : ℕ) : ℚ) := by
    rw [sumXY_nat, show (∑ i in Finset.range (scLen sampleAnomalyMid),
      sampleAnomalyMid.getD i 0 * sampleAnomalyMid.getD (i + 1) 0 : ℕ) = 1027167 from by
        decide]
  have hX : sumX sampleAnomalyMid = ((16135 : ℕ) : ℚ) := by
    rw [sumX_nat, show (∑ i in Finset.range (scLen sampleAnomalyMid),
      sampleAnomalyMid.getD i 0 : ℕ) = 16135 from by decide]
  have hY : sumY sampleAnomalyMid = ((16245 : ℕ) : ℚ) := by
    rw [sumY_nat, show (∑ i in Finset.range (scLen sampleAnomalyMid),
      sampleAnomalyMid.getD (i + 1) 0 : ℕ) = 16245 from by decide]
  have hX2 : sumX2 sampleAnomalyMid = ((1367119 : ℕ) : ℚ) := by
    rw [sumX2_nat, show (∑ i in Finset.range (scLen sampleAnomalyMid),
      sampleAnomalyMid.getD i 0 ^ 2 : ℕ) = 1367119 from by decide]
  have hY2 : sumY2 sampleAnomalyMid = ((1381639 : ℕ) : ℚ) := by
    rw [sumY2_nat, show (∑ i in Finset.range (scLen sampleAnomalyMid),
      sampleAnomalyMid.getD (i + 1) 0 ^ 2 : ℕ) = 1381639 from by decide]
  have hnum : scNum sampleAnomalyMid = -185490 := by
    unfold scNum
    rw [hXY, hX, hY, hscl]
    norm_num
  have hdx : scDenX sampleAnomalyMid = 88277120 := by
    unfold scDenX
    rw [hX2, hX, hscl]
    norm_num
  have hdy : scDenY sampleAnomalyMid = 88417920 := by
    unfold scDenY
    rw [hY2, hY, hscl]
    norm_num
  have hprodq : ((scDenX sampleAnomalyMid * scDenY sampleAnomalyMid : ℚ) : ℝ)
      = 88277120 * 88417920 := by
    rw [hdx, hdy]
    push_cast
    norm_num
  have hpos : (0 : ℝ) < ((scDenX sampleAnomalyMid * scDenY sampleAnomalyMid : ℚ) : ℝ) := by
    rw [hprodq]
    norm_num
  have hden_ne :
      Real.sqrt ((scDenX sampleAnomalyMid * scDenY sampleAnomalyMid : ℚ) : ℝ) ≠ 0 :=
    Real.sqrt_ne_zero'.mpr hpos
  have hcorr : |serialCorrelation sampleAnomalyMid| ≤ 1 / 50 := by
    rw [serialCorrelation_def, if_neg hden_ne, abs_div,
      abs_of_nonneg (Real.sqrt_nonneg _), div_le_iff (Real.sqrt_pos.mpr hpos)]
    have habs : |((scNum sampleAnomalyMid : ℚ) : ℝ)| = 185490 := by
      rw [hnum, show (((-185490 : ℚ)) : ℝ) = -(185490 : ℝ) by norm_num, abs_neg,
        abs_of_nonneg (by norm_num : (0 : ℝ) ≤ 185490)]
    rw [habs, hprodq]
    have hs : (9274500 : ℝ) ≤ Real.sqrt (88277120 * 88417920) := by
      rw [show (9274500 : ℝ) = Real.sqrt (9274500 ^ 2) from
        (Real.sqrt_sq (by norm_num)).symm]
      apply Real.sqrt_le_sqrt
      norm_num
    calc (185490 : ℝ) = 1 / 50 * 9274500 := by norm_num
    _ ≤ 1 / 50 * Real.sqrt (88277120 * 88417920) :=
      mul_le_mul_of_nonneg_left hs (by norm_num)
  have hlow : ∀ b ∈ sampleAnomalyMid, b ≤ 127 := by decide
  have hpairs : mcPairs sampleAnomalyMid = 64 := by decide
  have hinside : mcInside sampleAnomalyMid = 64 := by
    rw [mcInside_all_low _ hlow, hpairs]
  have hpe : piEstimate sampleAnomalyMid = 4 := by
    unfold piEstimate
    rw [hinside, hpairs]
    norm_num
  have hpi1 : (3.141592 : ℝ) < Real.pi := Real.pi_gt_3141592
  have hpi2 : Real.pi < 3.141593 := Real.pi_lt_3141593
  have hpipos : (0 : ℝ) < Real.pi := Real.pi_pos
  have hmc_eq : mcDeviation sampleAnomalyMid = (4 - Real.pi) / Real.pi := by
    unfold mcDeviation
    rw [hpe, show (((4 : ℚ)) : ℝ) = (4 : ℝ) by norm_num, abs_of_pos (by linarith)]
  have hmc_lb : (0.27323 : ℝ) ≤ mcDeviation sampleAnomalyMid := by
    rw [hmc_eq, le_div_iff hpipos]
    linarith
  have hmc_ub : mcDeviation sampleAnomalyMid ≤ (0.27324 : ℝ) := by
    rw [hmc_eq, div_le_iff hpipos]
    linarith
  have habs0 : 0 ≤ |serialCorrelation sampleAnomalyMid| := abs_nonneg _
  have hub : anomalyRaw sampleAnomalyMid ≤ 1 / 10 := by
    unfold anomalyRaw
    rw [hedev, hdev_abs, hchi_abs]
    linarith
  have hlb : 1 / 30 < anomalyRaw sampleAnomalyMid := by
    unfold anomalyRaw
    rw [hedev, hdev_abs, hchi_abs]
    linarith
  have hbias : polarityBias sampleAnomalyMid = -(1 / 10) := by
    unfold polarityBias
    rw [if_neg (not_lt.mpr (le_trans hub (by norm_num)))]
    norm_num
  refine ⟨?_, hbias, ?_⟩
  · simp only [fullEntropyAnalysis]
    apply lt_min
    · linarith
    · norm_num
  · rw [hbias]
    norm_num

/-- C4 amended: the bias added to the byte[5]-derived polarity value is
`+0.2` exactly when the FINAL anomaly score (after the ×3 scaling and
clamp) exceeds 0.3 — equivalently, when the pre-scaling anomaly value
exceeds 0.1 — and `-0.1` otherwise. -/
theorem polarityBias_iff_final_above_threshold (data : List ℕ) (h : 8 ≤ data.length) :
    polarityBias data = 1 / 5 ↔ (fullEntropyAnalysis data).anomalyScore > 3 / 10 := by
  simp only [fullEntropyAnalysis]
  unfold polarityBias
  by_cases hc : anomalyRaw data > 0.1
  · rw [if_pos hc]
    have hc10 : (1 : ℝ) / 10 < anomalyRaw data := by
      calc (1 : ℝ) / 10 = 0.1 := by norm_num
      _ < anomalyRaw data := hc
    constructor
    · intro _
      apply lt_min
      · linarith
      · norm_num
    · intro _
      norm_num
  · rw [if_neg hc]
    have hc10 : anomalyRaw data ≤ 1 / 10 := by
      have := not_lt.mp hc
      calc anomalyRaw data ≤ 0.1 := this
      _ = 1 / 10 := by norm_num
    constructor
    · intro habs
      exact absurd habs (by norm_num)
    · intro hgt
      exfalso
      have h1 : 3 / 10 < anomalyRaw data * 3 := lt_of_lt_of_le hgt (min_le_left _ _)
      linarith

/-- Witness for the amended C4 at a constant sample (`anomalyScore = 1`). -/
theorem polarityBias_iff_final_above_threshold_witness :
    8 ≤ (List.replicate 9 3).length ∧
      (polarityBias (List.replicate 9 3) = 1 / 5 ↔
        (fullEntropyAnalysis (List.replicate 9 3)).anomalyScore > 3 / 10) :=
  ⟨by decide, polarityBias_iff_final_above_threshold (List.replicate 9 3) (by decide)⟩

/-! ## Run-block machinery shared by the two scan loops (C5, C6) -/

lemma maxBlockLen_nil {α : Type} : maxBlockLen ([] : List (α × ℕ)) = 0 := rfl

lemma maxBlockLen_cons {α : Type} (c : α × ℕ) (tl : List (α × ℕ)) :
    maxBlockLen (c :: tl) = max c.2 (maxBlockLen tl) := rfl

lemma blockFold_nil {α : Type} (m : ℕ) (s : α) : blockFold ([] : List (α × ℕ)) m s = (m, s) :=
  rfl

lemma blockFold_cons {α : Type} (c : α × ℕ) (tl : List (α × ℕ)) (m : ℕ) (s : α) :
    blockFold (c :: tl) m s = blockFold tl (max m c.2) (if c.2 > m then c.1 else s) := rfl

/-- `chunksFrom a k rest` always starts with a block of symbol `a` and
length at least `k`. -/
lemma chunksFrom_shape {α : Type} [DecidableEq α] (rest : List α) :
    ∀ (a : α) (k : ℕ), ∃ L tl, chunksFrom a k rest = (a, L) :: tl ∧ k ≤ L := by
  induction rest with
  | nil => exact fun a k => ⟨k, [], rfl, le_refl k⟩
  | cons b r ih =>
    intro a k
    by_cases hb : b = a
    · obtain ⟨L, tl, heq, hle⟩ := ih a (k + 1)
      refine ⟨L, tl, ?_, by omega⟩
      rw [show chunksFrom a k (b :: r) = chunksFrom a (k + 1) r from by simp [chunksFrom, hb],
        heq]
    · exact ⟨k, chunksFrom b 1 r, by simp [chunksFrom, hb], le_refl k⟩

lemma blockFold_fst {α : Type} :
    ∀ (bs : List (α × ℕ)) (m : ℕ) (s : α), (blockFold bs m s).1 = max m (maxBlockLen bs) := by
  intro bs
  induction bs with
  | nil => intro m s; simp [blockFold_nil, maxBlockLen_nil]
  | cons c tl ih =>
    intro m s
    rw [blockFold_cons, ih, maxBlockLen_cons, max_assoc]

lemma blockFold_snd_of_le {α : Type} :
    ∀ (bs : List (α × ℕ)) (m : ℕ) (s : α),
      maxBlockLen bs ≤ m → (blockFold bs m s).2 = s := by
  intro bs
  induction bs with
  | nil => intros; rfl
  | cons c tl ih =>
    intro m s hle
    rw [maxBlockLen_cons] at hle
    have h1 : c.2 ≤ m := le_trans (le_max_left _ _) hle
    have h2 : maxBlockLen tl ≤ m := le_trans (le_max_right _ _) hle
    rw [blockFold_cons, if_neg (not_lt.mpr h1), max_eq_left h1]
    exact ih m s h2

/-- The symbol tracked by `blockFold` is the symbol of the first block
attaining the maximal length, provided that maximum beats the seed. -/
lemma blockFold_snd_first_max {α : Type} [DecidableEq α] :
    ∀ (bs : List (α × ℕ)) (m : ℕ) (s : α) (a : α) (j : ℕ),
      m < maxBlockLen bs →
      bs.find? (fun c => decide (c.2 = maxBlockLen bs)) = some (a, j) →
      (blockFold bs m s).2 = a := by
  intro bs
  induction bs with
  | nil =>
    intro m s a j hm _
    simp [maxBlockLen_nil] at hm
  | cons c tl ih =>
    intro m s a j hm hfind
    by_cases hk : c.2 = maxBlockLen (c :: tl)
    · have hpred : (fun x : α × ℕ => decide (x.2 = maxBlockLen (c :: tl))) c = true := by
        simp [hk]
      rw [@List.find?_cons_of_pos _ (fun x : α × ℕ => decide (x.2 = maxBlockLen (c :: tl)))
        c tl hpred] at hfind
      injection hfind with h1
      have hcm : m < c.2 := by rw [hk]; exact hm
      rw [blockFold_cons, if_pos hcm, blockFold_snd_of_le]
      · rw [h1]
      · have htl : maxBlockLen tl ≤ maxBlockLen (c :: tl) := by
          rw [maxBlockLen_cons]; exact le_max_right _ _
        rw [← hk] at htl
        exact le_trans htl (le_max_right _ _)
    · have hmtl : maxBlockLen (c :: tl) = maxBlockLen tl := by
        rcases max_choice c.2 (maxBlockLen tl) with hch | hch
        · rw [maxBlockLen_cons] at hk
          exact absurd ((maxBlockLen_cons c tl).trans hch).symm hk
        · rw [maxBlockLen_cons]; exact hch
      have hklt : c.2 < maxBlockLen (c :: tl) := by
        rcases lt_or_ge c.2 (maxBlockLen tl) with hch | hch
        · rw [hmtl]; exact hch
        · exfalso
          exact hk (by rw [maxBlockLen_cons, max_eq_left hch])
      have hpred : (fun x : α × ℕ => decide (x.2 = maxBlockLen (c :: tl))) c = false := by
        simp [hk]
      rw [@List.find?_cons_of_neg _ (fun x : α × ℕ => decide (x.2 = maxBlockLen (c :: tl)))
        c tl (by simp [hpred])] at hfind
      rw [blockFold_cons]
      apply ih _ _ a j
      · rw [← hmtl]
        exact max_lt hm hklt
      · rw [hmtl] at hfind
        exact hfind

lemma exists_mem_maxBlockLen {α : Type} :
    ∀ (bs : List (α × ℕ)), bs ≠ [] → ∃ c ∈ bs, c.2 = maxBlockLen bs := by
  intro bs
  induction bs with
  | nil => exact fun h => absurd rfl h
  | cons c tl ih =>
    intro _
    rcases le_or_lt (maxBlockLen tl) c.2 with hle | hlt
    · exact ⟨c, List.mem_cons_self _ _, by rw [maxBlockLen_cons, max_eq_left hle]⟩
    · have htl : tl ≠ [] := by
        intro he
        rw [he, maxBlockLen_nil] at hlt
        omega
      obtain ⟨d, hd, hdm⟩ := ih htl
      exact ⟨d, List.mem_cons_of_mem _ hd,
        by rw [maxBlockLen_cons, max_eq_right hlt.le, hdm]⟩

/-- The streak scan loop replayed block-by-block: provided the carried
`streak` never exceeds the carried maximum (an invariant of the real
execution), `streakAux` equals `blockFold` over the run-length blocks. -/
lemma streakAux_eq_blockFold :
    ∀ (rest : List Polarity) (prev : Polarity) (streak m : ℕ) (s : Polarity),
      1 ≤ streak → streak ≤ m →
      streakAux rest prev streak m s = blockFold (chunksFrom prev streak rest) m s := by
  intro rest
  induction rest with
  | nil =>
    intro prev streak m s _h1 h2
    show (m, s) = blockFold [(prev, streak)] m s
    rw [blockFold_cons, blockFold_nil, max_eq_left h2, if_neg (not_lt.mpr h2)]
  | cons p r ih =>
    intro prev streak m s h1 h2
    by_cases hp : p = prev
    · rw [show chunksFrom prev streak (p :: r) = chunksFrom prev (streak + 1) r from by
        simp [chunksFrom, hp]]
      rw [show streakAux (p :: r) prev streak m s =
          (if streak + 1 > m then streakAux r p (streak + 1) (streak + 1) p
            else streakAux r p (streak + 1) m s) from by simp [streakAux, hp]]
      subst hp
      by_cases hgt : streak + 1 > m
      · rw [if_pos hgt, ih p (streak + 1) (streak + 1) p (by omega) (le_refl _)]
        obtain ⟨L, tl, heq, hle⟩ := chunksFrom_shape r p (streak + 1)
        rw [heq, blockFold_cons, blockFold_cons]
        rw [max_eq_right hle, max_eq_right (by omega : m ≤ L), if_pos (by omega : L > m),
          ite_self]
      · rw [if_neg hgt, ih p (streak + 1) m s (by omega) (by omega)]
    · rw [show chunksFrom prev streak (p :: r) = (prev, streak) :: chunksFrom p 1 r from by
        simp [chunksFrom, hp]]
      rw [show streakAux (p :: r) prev streak m s = streakAux r p 1 m s from by
        simp [streakAux, hp]]
      rw [ih p 1 m s (le_refl 1) (by omega), blockFold_cons, max_eq_left h2,
        if_neg (not_lt.mpr h2)]

lemma streakScan_eq (p : Polarity) (rest : List Polarity) :
    streakScan (p :: rest) = blockFold (runBlocks (p :: rest)) 1 p := by
  show streakAux rest p 1 1 p = _
  rw [streakAux_eq_blockFold rest p 1 1 p (le_refl 1) (le_refl 1)]
  rfl

/-- The runs scan loop replayed block-by-block over the median
classification. -/
lemma runsAux_eq_blocks (med : ℕ) :
    ∀ (rest : List ℕ) (prev : ℕ) (runs m cur : ℕ),
      1 ≤ cur → cur ≤ m →
      runsAux med rest prev runs m cur =
        (runs + (chunksFrom (decide (med ≤ prev)) cur
            (rest.map (fun b => decide (med ≤ b)))).length - 1,
          max m (maxBlockLen (chunksFrom (decide (med ≤ prev)) cur
            (rest.map (fun b => decide (med ≤ b)))))) := by
  intro rest
  induction rest with
  | nil =>
    intro prev runs m cur h1 h2
    show (runs, m) = _
    simp [List.map_nil, chunksFrom, maxBlockLen_cons, maxBlockLen_nil, max_eq_left h2]
  | cons b r ih =>
    intro prev runs m cur h1 h2
    by_cases hb : decide (med ≤ b) = decide (med ≤ prev)
    · rw [show runsAux med (b :: r) prev runs m cur =
          runsAux med r b runs (max m (cur + 1)) (cur + 1) from by simp [runsAux, hb]]
      rw [ih b runs (max m (cur + 1)) (cur + 1) (by omega) (le_max_right _ _)]
      rw [show chunksFrom (decide (med ≤ prev)) cur
            ((b :: r).map (fun x => decide (med ≤ x)))
          = chunksFrom (decide (med ≤ b)) (cur + 1) (r.map (fun x => decide (med ≤ x))) from by
        simp [chunksFrom, hb]]
      obtain ⟨L, tl, heq, hle⟩ := chunksFrom_shape (r.map fun x => decide (med ≤ x))
        (decide (med ≤ b)) (cur + 1)
      have hmaxc : cur + 1 ≤ maxBlockLen (chunksFrom (decide (med ≤ b)) (cur + 1)
          (r.map fun x => decide (med ≤ x))) := by
        rw [heq, maxBlockLen_cons]
        exact le_trans hle (le_max_left _ _)
      congr 1
      rw [max_assoc, max_eq_right hmaxc]
    · rw [show runsAux med (b :: r) prev runs m cur = runsAux med r b (runs + 1) m 1 from by
        simp [runsAux, hb]]
      rw [ih b (runs + 1) m 1 (le_refl 1) (by omega)]
      rw [show chunksFrom (decide (med ≤ prev)) cur
            ((b :: r).map (fun x => decide (med ≤ x)))
          = (decide (med ≤ prev), cur) ::
              chunksFrom (decide (med ≤ b)) 1 (r.map (fun x => decide (med ≤ x))) from by
        simp [chunksFrom, hb]]
      congr 1
      · simp only [List.length_cons]
        omega
      · rw [maxBlockLen_cons, ← max_assoc, max_eq_left h2]

/-! ## C5 -/

/-- C5 counterexample: on three positives followed by three negatives, the
two opposite-polarity runs share the maximal length 3 and the negative run
occurs last, yet the streak pattern reports `positive` (the scan overwrites
only on strict `>`, so the FIRST maximal run wins, not the last). -/
theorem streak_tie_goes_to_last_run_cex :
    maxBlockLen (runBlocks streakTieSample) = 3 ∧
      lastMaxBlock (runBlocks streakTieSample) = some Polarity.negative ∧
      (streakScan streakTieSample).2 = Polarity.positive ∧
      streakPattern streakTieSample = some (Polarity.positive, 1 / 2) ∧
      Polarity.positive ≠ Polarity.negative := by
  have hscan : streakScan streakTieSample = (3, Polarity.positive) := by decide
  refine ⟨by decide, by decide, by rw [hscan], ?_, by decide⟩
  unfold streakPattern
  rw [hscan]
  norm_num [streakTieSample]

/-- C5 amended: when the longest run has length ≥ 3 and two runs of
opposite polarity share that maximal length, the streak pattern carries the
polarity of the maximal run that occurred FIRST in the sequence. -/
theorem streak_tie_goes_to_first_run (p : Polarity) (rest : List Polarity)
    (h3 : 3 ≤ maxBlockLen (runBlocks (p :: rest)))
    (htie : ∃ c1 ∈ runBlocks (p :: rest), ∃ c2 ∈ runBlocks (p :: rest),
      c1.2 = maxBlockLen (runBlocks (p :: rest)) ∧
        c2.2 = maxBlockLen (runBlocks (p :: rest)) ∧ c1.1 ≠ c2.1) :
    ∃ a : Polarity, firstMaxBlock (runBlocks (p :: rest)) = some a ∧
      streakPattern (p :: rest) =
        some (a, (maxBlockLen (runBlocks (p :: rest)) : ℚ) / ((p :: rest).length : ℚ)) := by
  have hne : runBlocks (p :: rest) ≠ [] := by
    show chunksFrom p 1 rest ≠ []
    obtain ⟨L, tl, heq, _⟩ := chunksFrom_shape rest p 1
    rw [heq]
    simp
  obtain ⟨c, hc, hcm⟩ := exists_mem_maxBlockLen _ hne
  have hsome : ((runBlocks (p :: rest)).find?
      (fun c => decide (c.2 = maxBlockLen (runBlocks (p :: rest))))).isSome = true := by
    rw [List.find?_isSome]
    exact ⟨c, hc, by simp [hcm]⟩
  obtain ⟨⟨a, j⟩, hfind⟩ := Option.isSome_iff_exists.mp hsome
  refine ⟨a, ?_, ?_⟩
  · unfold firstMaxBlock
    rw [hfind]
    rfl
  · have hscan : streakScan (p :: rest) = (maxBlockLen (runBlocks (p :: rest)), a) := by
      rw [streakScan_eq, Prod.ext_iff]
      refine ⟨?_, blockFold_snd_first_max (runBlocks (p :: rest)) 1 p a j (by omega) hfind⟩
      rw [blockFold_fst, max_eq_right (by omega)]
    unfold streakPattern
    rw [hscan, if_pos (show 3 ≤ (maxBlockLen (runBlocks (p :: rest)), a).1 from h3)]

/-- Witness for the amended C5: three negatives then three positives — the
first maximal run is negative and the pattern reports negative. -/
theorem streak_tie_goes_to_first_run_witness :
    3 ≤ maxBlockLen (runBlocks (Polarity.negative ::
        [Polarity.negative, Polarity.negative, Polarity.positive,
         Polarity.positive, Polarity.positive])) ∧
      ∃ a : Polarity, firstMaxBlock (runBlocks (Polarity.negative ::
          [Polarity.negative, Polarity.negative, Polarity.positive,
           Polarity.positive, Polarity.positive])) = some a ∧
        streakPattern (Polarity.negative ::
            [Polarity.negative, Polarity.negative, Polarity.positive,
             Polarity.positive, Polarity.positive]) =
          some (a, (maxBlockLen (runBlocks (Polarity.negative ::
              [Polarity.negative, Polarity.negative, Polarity.positive,
               Polarity.positive, Polarity.positive])) : ℚ) /
            ((Polarity.negative :: [Polarity.negative, Polarity.negative,
              Polarity.positive, Polarity.positive, Polarity.positive]).length : ℚ)) :=
  ⟨by decide, streak_tie_goes_to_first_run Polarity.negative
    [Polarity.negative, Polarity.negative, Polarity.positive,
     Polarity.positive, Polarity.positive] (by decide) (by decide)⟩

/-! ## C6 -/

/-- C6 counterexample: on `[0,0,0,0,1,1,1,1]` the median is 1; the source's
`>= median` classification yields 2 runs, whereas the claim's
"above vs below-or-equal" classification yields a single block. -/
theorem runsTest_equal_byte_goes_above_cex :
    (runsTest runsTieSample).runs = 2 ∧
      (runBlocks (runsTieSample.map (fun b => decide (median runsTieSample < b)))).length = 1 ∧
      ¬ ((2 : ℕ) = 1) := by decide

/-- C6 amended: `runsTest` classifies bytes as `>= median` versus
`< median` (a byte equal to the median goes with the ABOVE class), and its
`runs` and `maxRun` are exactly the number of maximal constant blocks of
that classification and the longest such block. -/
theorem runsTest_counts_blocks (data : List ℕ) (hne : data ≠ []) :
    (runsTest data).runs =
      (runBlocks (data.map (fun b => decide (median data ≤ b)))).length ∧
      (runsTest data).maxRun =
        maxBlockLen (runBlocks (data.map (fun b => decide (median data ≤ b)))) := by
  obtain ⟨b, rest, rfl⟩ := List.exists_cons_of_ne_nil hne
  have hr := runsAux_eq_blocks (median (b :: rest)) rest b 1 1 1 (le_refl 1) (le_refl 1)
  have hruns : (runsTest (b :: rest)).runs = (runsAux (median (b :: rest)) rest b 1 1 1).1 :=
    rfl
  have hmaxr : (runsTest (b :: rest)).maxRun = (runsAux (median (b :: rest)) rest b 1 1 1).2 :=
    rfl
  have hblocks : runBlocks ((b :: rest).map (fun x => decide (median (b :: rest) ≤ x)))
      = chunksFrom (decide (median (b :: rest) ≤ b)) 1
          (rest.map (fun x => decide (median (b :: rest) ≤ x))) := rfl
  obtain ⟨L, tl, heq, hle⟩ := chunksFrom_shape
    (rest.map (fun x => decide (median (b :: rest) ≤ x)))
    (decide (median (b :: rest) ≤ b)) 1
  constructor
  · rw [hruns, hr, hblocks, heq]
    simp only [List.length_cons]
    omega
  · rw [hmaxr, hr, hblocks, heq]
    have h1 : 1 ≤ maxBlockLen ((decide (median (b :: rest) ≤ b), L) :: tl) := by
      rw [maxBlockLen_cons]
      exact le_trans hle (le_trans (le_max_left _ _) (le_refl _))
    exact max_eq_right h1

/-- Witness for the amended C6 at `[0, 0, 1]`. -/
theorem runsTest_counts_blocks_witness :
    (([0, 0, 1] : List ℕ) ≠ []) ∧
      ((runsTest [0, 0, 1]).runs =
        (runBlocks (([0, 0, 1] : List ℕ).map
          (fun b => decide (median [0, 0, 1] ≤ b)))).length ∧
        (runsTest [0, 0, 1]).maxRun =
          maxBlockLen (runBlocks (([0, 0, 1] : List ℕ).map
            (fun b => decide (median [0, 0, 1] ≤ b))))) :=
  ⟨by decide, runsTest_counts_blocks [0, 0, 1] (by decide)⟩

/-! ## C10 -/

/-- C10: `evaluateDecision` scores each option with a function of that
option alone, hence swapping the arguments negates `diff` and swaps the
per-option scores and notes unchanged. -/
theorem evaluateDecision_antisymm (a b : DecisionOption) :
    (evaluateDecision b a).diff = -(evaluateDecision a b).diff ∧
      (evaluateDecision b a).a = (evaluateDecision a b).b ∧
      (evaluateDecision b a).b = (evaluateDecision a b).a := by
  refine ⟨?_, rfl, rfl⟩
  simp only [evaluateDecision]
  ring

/-! ## C1 -/

/-- C1 counterexample: on `sampleTie` the biased polarity value
(`polarityRaw`) is exactly 0, yet the reported polarity is `"negative"`,
refuting "a biased value of exactly 0 yields polarity positive" (the
source tests `polarity > 0`, not `>= 0`). -/
theorem polarity_tie_goes_negative_cex :
    (fullEntropyAnalysis sampleTie).polarityRaw = 0 ∧
      (fullEntropyAnalysis sampleTie).polarity = "negative" ∧
      (fullEntropyAnalysis sampleTie).polarity ≠ "positive" := by
  have hruns : (runsTest sampleTie).runs = 1 := by decide
  have hlen : sampleTie.length = 8 := by decide
  have hdev : (runsTest sampleTie).deviation = -7 / 9 := by
    rw [runsTest_deviation_def, hruns, hlen]; norm_num
  have hcast : (((-7 / 9 : ℚ)) : ℝ) = -(7 / 9 : ℝ) := by norm_num
  have habs : |(((runsTest sampleTie).deviation : ℚ) : ℝ)| = 7 / 9 := by
    rw [hdev, hcast, abs_neg, abs_of_nonneg (by norm_num : (0 : ℝ) ≤ 7 / 9)]
  have hraw : 0.1 < anomalyRaw sampleTie := by
    calc (0.1 : ℝ) < 7 / 9 * 0.25 := by norm_num
    _ = |(((runsTest sampleTie).deviation : ℚ) : ℝ)| * 0.25 := by rw [habs]
    _ ≤ anomalyRaw sampleTie := anomalyRaw_ge_runsTerm sampleTie
  have h5 : sampleTie.getD 5 0 = 102 := by decide
  have hrp : rawPolarity sampleTie = -1 / 5 := by
    unfold rawPolarity; rw [h5]; norm_num
  have hval : polarityValue sampleTie = 0 := by
    unfold polarityValue polarityBias
    rw [if_pos hraw, hrp]
    norm_num
  refine ⟨hval, ?_, ?_⟩ <;> simp only [fullEntropyAnalysis, hval]
  · rw [if_neg (lt_irrefl 0)]
  · rw [if_neg (lt_irrefl 0)]
    decide

/-- C1 amended: the polarity reported by `fullEntropyAnalysis` is
`"positive"` iff the biased polarity value is strictly greater than 0; a
biased value of exactly 0 yields `"negative"`. -/
theorem polarity_positive_iff_pos (data : List ℕ) (h : 8 ≤ data.length) :
    (fullEntropyAnalysis data).polarity = "positive" ↔
      0 < (fullEntropyAnalysis data).polarityRaw := by
  simp only [fullEntropyAnalysis]
  by_cases hc : polarityValue data > 0
  · rw [if_pos hc]
    exact ⟨fun _ => hc, fun _ => rfl⟩
  · rw [if_neg hc]
    exact ⟨fun hcontra => absurd hcontra (by decide), fun hcontra => absurd hcontra hc⟩

/-- Witness for the amended C1 at a concrete sample with `byte[5] = 255`. -/
theorem polarity_positive_iff_pos_witness :
    8 ≤ ([0, 0, 0, 0, 0, 255, 0, 0] : List ℕ).length ∧
      ((fullEntropyAnalysis [0, 0, 0, 0, 0, 255, 0, 0]).polarity = "positive" ↔
        0 < (fullEntropyAnalysis [0, 0, 0, 0, 0, 255, 0, 0]).polarityRaw) :=
  ⟨by decide, polarity_positive_iff_pos [0, 0, 0, 0, 0, 255, 0, 0] (by decide)⟩

end Driftfield
